import Mathlib

/-!
Verification of the Knowledge-Management ingestion pipeline.

This file gives a shallow embedding, in Lean 4, of the parts of the
repository that the specification talks about:

- `backend/services/ingestion_service.py` (`IngestionService`):
  the batch entry point `ingest_documents`, the per-document pipeline
  `_process_single_document`, the global admission semaphore, and
  `delete_document`;
- `backend/clients/video_scene_detector.py` (`VideoSceneDetector`):
  key-frame selection (`select_key_frames_from_video`);
- `backend/clients/groq_whisper_client.py` (`GroqWhisperClient`):
  size-gated audio transcription and window reassembly
  (`transcribe_audio_with_timestamps`, `_transcribe_chunked_file`);
- `backend/routers/upload.py`: the object-storage key construction.

External collaborators (MongoDB, Pinecone, iDrive E2, the Groq API, the
chunker backend) are modelled as oracles: their outcomes are inputs to the
embedded functions, and their observable effects are recorded in explicit
event traces.  Python floats are modelled as rationals, Python ints as
`Nat`/`Int`, raised exceptions as `Except String`.
-/

/-! ## Metadata values

Pinecone chunk metadata is a Python dict whose values may in particular be
`None`; a key present with value `None` is distinct from an absent key,
which is exactly what the null-metadata claims are about. -/

/-- A metadata value as it appears in a Python dict headed for Pinecone. -/
inductive MValue where
  | null : MValue
  | str : String → MValue
  | nat : Nat → MValue
  | rat : ℚ → MValue
deriving DecidableEq, Repr

/-- Lift a Python `Optional[str]` into a metadata value: `None` becomes
`null`, a string stays a string. -/
def MValue.ofOpt : Option String → MValue
  | none => MValue.null
  | some s => MValue.str s

/-- A metadata bag: association list with dict semantics (keys unique,
later insertion of an existing key overwrites). -/
abbrev Metadata := List (String × MValue)

/-- Dict insertion: overwrite the value in place when the key is present,
append otherwise.  Mirrors Python dict update semantics (keys are unique,
insertion order preserved). -/
def metaInsert : Metadata → String → MValue → Metadata
  | [], k, v => [(k, v)]
  | kv :: rest, k, v =>
    if kv.1 == k then (k, v) :: rest else kv :: metaInsert rest k v

/-- Merge `extra` into `m`, mirroring `{**m_literal, **(extra or {})}`. -/
def metaMerge (m : Metadata) (extra : Metadata) : Metadata :=
  extra.foldl (fun acc kv => metaInsert acc kv.1 kv.2) m

/-- Dict lookup. -/
def metaGet (m : Metadata) (k : String) : Option MValue :=
  (m.find? (fun kv => kv.1 == k)).map (fun kv => kv.2)

/-- A bag is null-free when no key is mapped to `null`. -/
def nullFree (m : Metadata) : Prop :=
  ∀ kv ∈ m, kv.2 ≠ MValue.null

instance (m : Metadata) : Decidable (nullFree m) :=
  List.decidableBAll _ m

/-! ## Decimal numerals

`_process_single_document` builds Pinecone vector IDs with f-strings such
as `f"{document_id}_pre{pre_chunk_index}_chunk{i}"`.  Python formats the
integers in decimal; `decRepr` is that decimal formatter, built on
`Nat.digits` so that injectivity and the digit-character bound are
available. -/

/-- The decimal digit character for `d < 10`. -/
def digitChar (d : Nat) : Char :=
  Char.ofNat (48 + d)

/-- Decimal representation of a natural number, most significant digit
first, as Python's `str`/f-string formatting produces. -/
def decRepr (n : Nat) : String :=
  if n = 0 then "0"
  else String.mk (((Nat.digits 10 n).reverse).map digitChar)

/-! ## Vector-store chunk IDs

From `IngestionService._process_single_document`: non-video chunk IDs are
built as `f"{document_id}_pre{pre_chunk_index}_chunk{i}"` (lines 362-367),
video scene chunk IDs as `f"{document_id}_{chunk_id}"`
(line 303). -/

/-- Non-video chunk vector ID. -/
def mkChunkId (documentId : String) (preChunkIndex chunkIndex : Nat) : String :=
  documentId ++ "_pre" ++ decRepr preChunkIndex ++ "_chunk" ++ decRepr chunkIndex

/-- Video scene chunk vector ID. -/
def mkVideoChunkId (documentId : String) (chunkId : Nat) : String :=
  documentId ++ "_" ++ decRepr chunkId

/-! ## Scene key frames

From `VideoSceneDetector.select_key_frames_from_video`
(`backend/clients/video_scene_detector.py`, lines 193-225).  Frame decoding
and entropy of the decoded frame are collaborator effects, modelled by the
oracles `readOk` (does `cap.read()` succeed for this frame) and
`entropyOf`. -/

/-- A detected scene, as produced by `detect_scenes_from_video`. -/
structure Scene where
  scene_id : Nat
  start_frame : Int
  end_frame : Int
  start_time : ℚ
  end_time : ℚ
deriving DecidableEq, Repr

/-- A selected key frame. -/
structure KeyFrame where
  frame_number : Int
  timestamp : ℚ
  scene_id : Nat
  scene_start : ℚ
  scene_end : ℚ
  entropy : ℚ
deriving DecidableEq, Repr

/-- Python's `middle_frame_num = (scene["start_frame"] + scene["end_frame"]) // 2`;
`Int.fdiv` is Python's floor division `//`. -/
def middleFrame (s : Scene) : Int :=
  (s.start_frame + s.end_frame).fdiv 2

/-- The body of the per-scene loop of `select_key_frames_from_video`. -/
def selectKeyFrame (entropyOf : Int → ℚ) (s : Scene) : KeyFrame :=
  let middle := middleFrame s
  let sceneDuration := s.end_time - s.start_time
  let sceneFrames := s.end_frame - s.start_frame
  let frameOffset := middle - s.start_frame
  let timestamp :=
    if sceneFrames > 0 then
      s.start_time + ((frameOffset : ℚ) / (sceneFrames : ℚ)) * sceneDuration
    else
      s.start_time
  { frame_number := middle
    timestamp := timestamp
    scene_id := s.scene_id
    scene_start := s.start_time
    scene_end := s.end_time
    entropy := entropyOf middle }

/-- The loop of `select_key_frames_from_video`: scenes whose middle frame cannot be
decoded are skipped with a warning. -/
def selectKeyFramesFromVideo (entropyOf : Int → ℚ) (readOk : Int → Bool)
    (scenes : List Scene) : List KeyFrame :=
  scenes.filterMap (fun s =>
    if readOk (middleFrame s) then some (selectKeyFrame entropyOf s) else none)

/-- Modelled from the spec: the key-frame timestamp formula of section 4.2,
`timestamp = start_time + (key_frame_number - start_frame) /
(end_frame - start_frame) * (end_time - start_time)`, with the degenerate
case `end_frame == start_frame` falling back to `start_time`. -/
def specKeyFrameTimestamp (s : Scene) (keyFrameNumber : Int) : ℚ :=
  if s.end_frame = s.start_frame then s.start_time
  else s.start_time +
    ((keyFrameNumber - s.start_frame : Int) : ℚ) / ((s.end_frame - s.start_frame : Int) : ℚ)
      * (s.end_time - s.start_time)

/-! ## Audio transcription windows

From `GroqWhisperClient.transcribe_audio_with_timestamps` and
`_transcribe_chunked_file` (`backend/clients/groq_whisper_client.py`).
The per-call Whisper backend is an oracle mapping a window (start and end
in milliseconds) to the segments it returns, with timestamps relative to
the window. -/

/-- A transcription segment; `stop` models the Python dict key `end`
(a reserved word in Lean). -/
structure TSeg where
  start : ℚ
  stop : ℚ
  text : String
deriving DecidableEq, Repr

/-- The window length `chunk_duration_ms = 10 * 60 * 1000`. -/
def audioChunkMs : Nat := 10 * 60 * 1000

/-- The loop `for start_ms in range(0, total_duration_ms, chunk_duration_ms)`
building `(start_ms, min(start_ms + chunk_duration_ms, total_duration_ms))`
windows. -/
def splitWindows (startMs totalMs : Nat) : List (Nat × Nat) :=
  if startMs < totalMs then
    (startMs, min (startMs + audioChunkMs) totalMs) :: splitWindows (startMs + audioChunkMs) totalMs
  else
    []
termination_by totalMs - startMs
decreasing_by
  simp [audioChunkMs]
  omega

/-- Timestamp shifting: `seg["start"] and seg["end"] are increased by time_offset` with
`time_offset = start_ms / 1000.0` seconds. -/
def shiftSeg (startMs : Nat) (seg : TSeg) : TSeg :=
  { start := seg.start + (startMs : ℚ) / 1000
    stop := seg.stop + (startMs : ℚ) / 1000
    text := seg.text }

/-- The body of `_transcribe_chunked_file`: split, transcribe each window through the
oracle, shift each returned segment by the window's start offset, and
concatenate in window order. -/
def transcribeChunkedFile (windowOracle : Nat → Nat → List TSeg)
    (totalMs : Nat) : List TSeg :=
  (splitWindows 0 totalMs).flatMap
    (fun w => (windowOracle w.1 w.2).map (shiftSeg w.1))

/-- The gate of `transcribe_audio_with_timestamps`: `file_size_mb = len / (1024*1024)`;
at most 20 MB goes through `_transcribe_single_file` in one call, larger
files through `_transcribe_chunked_file`. -/
def transcribeAudioWithTimestamps (fileLen : Nat) (singleOracle : List TSeg)
    (windowOracle : Nat → Nat → List TSeg) (totalMs : Nat) : List TSeg :=
  if (fileLen : ℚ) / (1024 * 1024) ≤ 20 then singleOracle
  else transcribeChunkedFile windowOracle totalMs

/-! ## Object-storage keys

From `IngestionService._process_single_document` lines 176-181 and
`upload_documents` in `backend/routers/upload.py` lines 80-85: the key is
built from the sanitized file name before any document ID exists
(`sanitize_filename` lives in `utils/file_utils.py`, which is not part of
this snapshot; the sanitized name is therefore kept abstract). -/

/-- The `file_key` construction shared by the service and the router. -/
def mkFileKey (organizationId : Option String) (folderName safeFilename : String) : String :=
  match organizationId with
  | some org => org ++ "/" ++ folderName ++ "/" ++ safeFilename
  | none => folderName ++ "/" ++ safeFilename

/-- Modelled from the spec: section 6 claims keys are constructed as
`organization_id/folder_name/document_id extension`. -/
def specFileKey (organizationId folderName documentId extension : String) : String :=
  organizationId ++ "/" ++ folderName ++ "/" ++ documentId ++ extension


/-! ## The per-document ingestion pipeline

Shallow embedding of `IngestionService._process_single_document` and the
wrapper `process_file_with_error_handling` inside `ingest_documents`
(`backend/services/ingestion_service.py`).  Collaborator outcomes (upload,
extraction, the chunker backend, each Pinecone call, the MongoDB-assigned
document ID) are inputs in `FileEnv`; observable collaborator effects are
recorded as an explicit `Event` trace.  Wall-clock timestamps
(`created_at`, `updated_at`, `completed_at`, `failed_at`) and the
`processing_progress` sub-document are not modelled: no claim mentions
them. -/

/-- The `processing_stage` values written by the service. -/
inductive Stage where
  | initializing
  | uploading_extracting
  | content_extracted
  | embedding
  | completed
  | failed
deriving DecidableEq, Repr

/-- The coarse `status` field. -/
inductive DocStatus where
  | processing
  | completed
  | failed
deriving DecidableEq, Repr

/-- Position of a stage along the forward chain, with the two terminal
stages at the top. -/
def stageIdx : Stage → Nat
  | Stage.initializing => 0
  | Stage.uploading_extracting => 1
  | Stage.content_extracted => 2
  | Stage.embedding => 3
  | Stage.completed => 4
  | Stage.failed => 5

/-- The MongoDB document record, restricted to the fields the service
writes and the claims read. -/
structure DocRecord where
  file_name : String
  folder_name : String
  raw_content : Option String
  file_key : String
  file_size_mb : ℚ
  file_extension : String
  user_id : Option String
  organization_id : Option String
  status : DocStatus
  processing_stage : Stage
  processing_stage_description : String
  error : Option String
deriving DecidableEq, Repr

/-- One pre-built video scene chunk, as consumed by the video branch of
`_process_single_document` (the bundle is produced by `extract_raw_data`
in the absent `utils/file_utils.py`; the branch only reads these keys). -/
structure VideoChunk where
  blended_text : String
  video_id : String
  video_name : String
  clip_start : ℚ
  clip_end : ℚ
  duration : ℚ
  key_frame_timestamp : ℚ
  chunk_id : Nat
  keyframe_file_key : Option String
deriving DecidableEq, Repr

/-- Outcome of `extract_raw_data`: an exception, plain text, or the video
bundle (`the dict with type "video", combined_text and chunks`). -/
inductive ExtractResult where
  | failure (msg : String)
  | text (content : String)
  | video (combinedText : String) (chunks : List VideoChunk)
deriving DecidableEq, Repr

/-- Per-file collaborator behaviour for one run of the pipeline. -/
structure FileEnv where
  /-- Python `file.filename`. -/
  filename : String
  /-- The value `sanitize_filename(file.filename)`; `sanitize_filename` lives in the
  absent `utils/file_utils.py`, so its value is an input. -/
  safeFilename : String
  /-- The value `get_file_size_mb(file_content)`. -/
  fileSizeMb : ℚ
  /-- The ObjectId MongoDB assigns on insert, as a string. -/
  newDocId : String
  /-- Outcome of `idrivee2_client.upload_file`: `some msg` means it raised. -/
  uploadError : Option String
  /-- Outcome of `extract_raw_data`. -/
  extractResult : ExtractResult
  /-- Outcome of the k-th `pinecone_client.add_documents` call. -/
  pineconeError : Nat → Option String
  /-- Chunker backend: texts of the token-ceiling pre-chunks. -/
  preSplit : String → List String
  /-- Chunker backend: semantic chunk texts of one pre-chunk. -/
  semanticSplit : String → List String
  /-- The value `validate_content_for_embeddings(...)["token_count"]`. -/
  tokenCount : String → Nat

/-- Observable collaborator effects, in program order. -/
inductive Event where
  | semAcquire
  | semRelease
  | insertDoc (id : String) (status : DocStatus) (stage : Stage)
  | uploadFile (key : String)
  | extractContent
  | updateStatus (id : String) (status : Option DocStatus) (stage : Option Stage)
      (error : Option String)
  | updateContent (id : String) (stage : Option Stage)
  | upsertChunks (ids : List String) (metadatas : List Metadata) (ns : Option String)
deriving DecidableEq, Repr

/-- Modelled from the spec: `validate_extracted_content` from the absent
`utils/file_utils.py` — empty or whitespace-only extracted text is
invalid (spec section 4.5, step 3), so content is valid exactly when it
has a non-whitespace character. -/
def validateExtractedContent (s : String) : Bool :=
  s.data.any (fun c => !c.isWhitespace)

/-- Characters after the last dot of a file name, when a dot exists. -/
def extensionAux : List Char → Option (List Char) → Option (List Char)
  | [], acc => acc
  | c :: rest, acc =>
    if c = '.' then extensionAux rest (some [])
    else extensionAux rest (acc.map (fun l => l ++ [c]))

/-- Modelled from the spec: `get_file_extension` from the absent
`utils/file_utils.py` — the file name's extension including the dot,
empty when there is none. -/
def getFileExtension (name : String) : String :=
  match extensionAux name.data none with
  | none => ""
  | some ext => "." ++ String.mk ext

/-- Modelled from the spec: `prepare_content_for_vectorization` from the
absent `clients/chunker_client.py` — a hard token-ceiling pre-split whose
pre-chunks carry a `pre_chunk_index` in their metadata (spec section 4.3).
The split positions themselves come from the `preSplit` oracle. -/
def prepareContentForVectorization (preSplit : String → List String)
    (content : String) (metadata : Metadata) : List (String × Metadata) :=
  (preSplit content).enum.map
    (fun pi => (pi.2, metaInsert metadata "pre_chunk_index" (MValue.nat pi.1)))

/-- Modelled from the spec: `chunk_with_metadata` from the absent
`clients/chunker_client.py` — every chunk inherits the full base metadata
bag unchanged plus its own chunk-local field (spec section 4.3).  The
semantic boundaries come from the `semanticSplit` oracle. -/
def chunkWithMetadata (semanticSplit : String → List String)
    (text : String) (base : Metadata) : List (String × Metadata) :=
  (semanticSplit text).enum.map
    (fun pi => (pi.2, metaInsert base "chunk_index" (MValue.nat pi.1)))

/-- The video-chunk metadata dict of `_process_single_document`
lines 278-303: literal keys, `**(additional_metadata or {})` merged on
top, and `keyframe_file_key` added only when it is not `None`. -/
def videoChunkMetadata (documentId fileName folderName fileKey : String)
    (userId : Option String) (additional : Metadata) (c : VideoChunk) : Metadata :=
  let base : Metadata :=
    [("document_id", MValue.str documentId),
     ("file_name", MValue.str fileName),
     ("folder_name", MValue.str folderName),
     ("file_key", MValue.str fileKey),
     ("user_id", MValue.ofOpt userId),
     ("video_id", MValue.str c.video_id),
     ("video_name", MValue.str c.video_name),
     ("clip_start", MValue.rat c.clip_start),
     ("clip_end", MValue.rat c.clip_end),
     ("duration", MValue.rat c.duration),
     ("key_frame_timestamp", MValue.rat c.key_frame_timestamp),
     ("scene_id", MValue.nat c.chunk_id)]
  let merged := metaMerge base additional
  match c.keyframe_file_key with
  | some k => metaInsert merged "keyframe_file_key" (MValue.str k)
  | none => merged

/-- The non-video `base_metadata` dict of lines 324-331. -/
def baseMetadata (documentId fileName folderName fileKey : String)
    (userId : Option String) (additional : Metadata) : Metadata :=
  metaMerge
    [("document_id", MValue.str documentId),
     ("file_name", MValue.str fileName),
     ("folder_name", MValue.str folderName),
     ("file_key", MValue.str fileKey),
     ("user_id", MValue.ofOpt userId)] additional

/-- The value returned for a successfully processed file. -/
structure SingleResult where
  document_id : String
  file_name : String
  folder_name : String
  file_key : String
  file_size_mb : ℚ
  total_chunks : Nat
  /-- The field `token_count` is added only for non-video files. -/
  token_count : Option Nat
deriving DecidableEq, Repr

/-- Result of one pipeline run: the effect trace, the final state of the
document record, and the return value or re-raised exception. -/
instance : DecidableEq (Except String SingleResult) :=
  fun a b =>
    match a, b with
    | Except.ok x, Except.ok y =>
      if h : x = y then isTrue (by rw [h]) else isFalse (by intro he; cases he; exact h rfl)
    | Except.error x, Except.error y =>
      if h : x = y then isTrue (by rw [h]) else isFalse (by intro he; cases he; exact h rfl)
    | Except.ok _, Except.error _ => isFalse (by intro he; cases he)
    | Except.error _, Except.ok _ => isFalse (by intro he; cases he)

structure PipelineRun where
  events : List Event
  record : DocRecord
  outcome : Except String SingleResult
deriving DecidableEq, Repr

/-- The per-pre-chunk loop of lines 342-381: semantic-chunk each prepared
document, build IDs, and call Pinecone once per pre-chunk; the k-th call
may raise.  Returns the upsert events so far, the chunk total, and the
raised message if any. -/
def upsertPreChunks (env : FileEnv) (docId : String) (ns : Option String) :
    List (String × Metadata) → Nat → Nat → List Event × Nat × Option String
  | [], _, total => ([], total, none)
  | pc :: rest, k, total =>
    let chunks := chunkWithMetadata env.semanticSplit pc.1 pc.2
    let preIdx := match metaGet pc.2 "pre_chunk_index" with
      | some (MValue.nat i) => i
      | _ => 0
    let ids := (List.range chunks.length).map (mkChunkId docId preIdx)
    let metadatas := chunks.map (fun c => c.2)
    match env.pineconeError k with
    | some msg => ([], total, some msg)
    | none =>
      let next := upsertPreChunks env docId ns rest (k + 1) (total + chunks.length)
      (Event.upsertChunks ids metadatas ns :: next.1, next.2.1, next.2.2)

/-- The `except` handler of lines 411-422: mark the record failed with the
exception message and re-raise. -/
def failWith (docId : String) (r : DocRecord) (evs : List Event) (msg : String) :
    PipelineRun :=
  { events := evs ++
      [Event.updateStatus docId (some DocStatus.failed) (some Stage.failed) (some msg)]
    record := { r with
      status := DocStatus.failed
      processing_stage := Stage.failed
      processing_stage_description := "Processing failed: " ++ msg
      error := some msg }
    outcome := Except.error msg }

/-- The pipeline `IngestionService._process_single_document` (lines 148-422). -/
def processSingleDocument (folderName : String) (userId organizationId : Option String)
    (additional : Metadata) (env : FileEnv) : PipelineRun :=
  let fileKey := mkFileKey organizationId folderName env.safeFilename
  let docId := env.newDocId
  let rec0 : DocRecord :=
    { file_name := env.filename
      folder_name := folderName
      raw_content := none
      file_key := fileKey
      file_size_mb := env.fileSizeMb
      file_extension := getFileExtension env.filename
      user_id := userId
      organization_id := organizationId
      status := DocStatus.processing
      processing_stage := Stage.initializing
      processing_stage_description := "Starting ingestion"
      error := none }
  let ev0 : List Event := [Event.insertDoc docId DocStatus.processing Stage.initializing]
  let rec1 := { rec0 with
    processing_stage := Stage.uploading_extracting
    processing_stage_description := "Uploading to storage and extracting content" }
  let ev1 := ev0 ++ [Event.updateStatus docId none (some Stage.uploading_extracting) none]
  match env.uploadError with
  | some msg => failWith docId rec1 ev1 msg
  | none =>
    let ev2 := ev1 ++ [Event.uploadFile fileKey]
    match env.extractResult with
    | ExtractResult.failure msg => failWith docId rec1 ev2 msg
    | ExtractResult.video combinedText chunks =>
      let ev3 := ev2 ++ [Event.extractContent]
      if combinedText = "" ∨ chunks = [] then
        failWith docId rec1 ev3 ("Video processing failed for: " ++ env.filename)
      else
        let rec2 := { rec1 with
          raw_content := some combinedText
          processing_stage := Stage.content_extracted
          processing_stage_description := "Content extraction completed" }
        let ev4 := ev3 ++ [Event.updateContent docId (some Stage.content_extracted)]
        let rec3 := { rec2 with
          processing_stage := Stage.embedding
          processing_stage_description :=
            "Creating embeddings for " ++ decRepr chunks.length ++ " video chunks" }
        let ev5 := ev4 ++ [Event.updateStatus docId none (some Stage.embedding) none]
        let metadatas := chunks.map
          (videoChunkMetadata docId env.filename folderName fileKey userId additional)
        let ids := chunks.map (fun c => mkVideoChunkId docId c.chunk_id)
        match env.pineconeError 0 with
        | some msg => failWith docId rec3 ev5 msg
        | none =>
          let ev6 := ev5 ++ [Event.upsertChunks ids metadatas organizationId]
          let totalChunks := chunks.length
          let rec4 := { rec3 with
            status := DocStatus.completed
            processing_stage := Stage.completed
            processing_stage_description :=
              "Successfully processed " ++ decRepr totalChunks ++ " chunks" }
          let ev7 := ev6 ++
            [Event.updateStatus docId (some DocStatus.completed) (some Stage.completed) none]
          { events := ev7
            record := rec4
            outcome := Except.ok
              { document_id := docId
                file_name := env.filename
                folder_name := folderName
                file_key := fileKey
                file_size_mb := env.fileSizeMb
                total_chunks := totalChunks
                token_count := none } }
    | ExtractResult.text content =>
      let ev3 := ev2 ++ [Event.extractContent]
      if !(validateExtractedContent content) then
        failWith docId rec1 ev3 ("Extracted content is invalid or empty for: " ++ env.filename)
      else
        let rec2 := { rec1 with
          raw_content := some content
          processing_stage := Stage.content_extracted
          processing_stage_description := "Content extraction completed" }
        let ev4 := ev3 ++ [Event.updateContent docId (some Stage.content_extracted)]
        let base := baseMetadata docId env.filename folderName fileKey userId additional
        let prepared := prepareContentForVectorization env.preSplit content base
        let loop := upsertPreChunks env docId organizationId prepared 0 0
        match loop.2.2 with
        | some msg => failWith docId rec2 (ev4 ++ loop.1) msg
        | none =>
          let totalChunks := loop.2.1
          let rec3 := { rec2 with
            status := DocStatus.completed
            processing_stage := Stage.completed
            processing_stage_description :=
              "Successfully processed " ++ decRepr totalChunks ++ " chunks" }
          let ev5 := ev4 ++ loop.1 ++
            [Event.updateStatus docId (some DocStatus.completed) (some Stage.completed) none]
          { events := ev5
            record := rec3
            outcome := Except.ok
              { document_id := docId
                file_name := env.filename
                folder_name := folderName
                file_key := fileKey
                file_size_mb := env.fileSizeMb
                total_chunks := totalChunks
                token_count := some (env.tokenCount content) } }

/-- What `process_file_with_error_handling` hands back to `asyncio.gather`
for one file. -/
structure FileResult where
  success : Bool
  filename : String
  result : Option SingleResult
  error : Option String
deriving DecidableEq, Repr

/-- The wrapper `process_file_with_error_handling` (lines 97-116): semaphore slot
around the pipeline, every exception converted into a per-file failure
value, the slot released on both paths. -/
def processFileWithErrorHandling (folderName : String)
    (userId organizationId : Option String) (additional : Metadata)
    (env : FileEnv) : List Event × DocRecord × FileResult :=
  let run := processSingleDocument folderName userId organizationId additional env
  let fr := match run.outcome with
    | Except.ok r =>
      { success := true, filename := env.filename, result := some r, error := none }
    | Except.error msg =>
      { success := false, filename := env.filename, result := none, error := some msg }
  (Event.semAcquire :: run.events ++ [Event.semRelease], run.record, fr)

/-- Aggregate batch statistics built by the loop over `file_results`
(lines 121-133). -/
structure BatchResults where
  folder_name : String
  total_files : Nat
  successful_files : Nat
  failed_files : Nat
  documents : List SingleResult
  errors : List (String × String)
  total_chunks : Nat
deriving DecidableEq, Repr

/-- One aggregation step of the `for file_result in file_results` loop. -/
def aggregateStep (acc : BatchResults) (fr : FileResult) : BatchResults :=
  match fr.result with
  | some r =>
    { acc with
      successful_files := acc.successful_files + 1
      documents := acc.documents ++ [r]
      total_chunks := acc.total_chunks + r.total_chunks }
  | none =>
    { acc with
      failed_files := acc.failed_files + 1
      errors := acc.errors ++ [(fr.filename, fr.error.getD "")] }

/-- The batch entry `IngestionService.ingest_documents` (lines 55-146): run every file
through the wrapper and aggregate; the per-file runs are returned
alongside so their traces and records stay observable. -/
def ingestDocuments (folderName : String) (userId organizationId : Option String)
    (additional : Metadata) (envs : List FileEnv) :
    BatchResults × List (List Event × DocRecord × FileResult) :=
  let runs := envs.map (processFileWithErrorHandling folderName userId organizationId additional)
  let init : BatchResults :=
    { folder_name := folderName
      total_files := envs.length
      successful_files := 0
      failed_files := 0
      documents := []
      errors := []
      total_chunks := 0 }
  (List.foldl aggregateStep init (runs.map (fun t => t.2.2)), runs)

/-- The sequence of `processing_stage` values persisted during a trace. -/
def stageTrace (evs : List Event) : List Stage :=
  evs.filterMap (fun e =>
    match e with
    | Event.insertDoc _ _ st => some st
    | Event.updateStatus _ _ st _ => st
    | Event.updateContent _ st => st
    | _ => none)

/-- All chunk metadata bags written to the vector store during a trace. -/
def upsertMetadatas (evs : List Event) : List Metadata :=
  evs.flatMap (fun e =>
    match e with
    | Event.upsertChunks _ mds _ => mds
    | _ => [])

/-- Recognizer for the record-insertion event, for ordering statements. -/
def isInsertEv : Event → Bool
  | Event.insertDoc _ _ _ => true
  | _ => false

/-- Recognizer for the semaphore-acquire event. -/
def isAcquireEv : Event → Bool
  | Event.semAcquire => true
  | _ => false

/-! ## The global admission semaphore

`IngestionService._global_ingestion_semaphore = asyncio.Semaphore(N)` with
`N = settings.MAX_THREAD_WORKERS` (the `app/settings.py` module is absent,
so the capacity is an abstract `n`).  `process_file_with_error_handling`
enters the pipeline only inside `async with` on that semaphore, whose exit
runs on both the return and the raise path.  The interleaving of the `m`
concurrently launched pipelines is modelled as a transition system: a
pipeline is `waiting` before `acquire()` returns, `holding` between
`acquire()` and `release()`, `finished` after. -/

/-- Where one pipeline stands relative to the admission gate. -/
inductive Phase where
  | waiting
  | holding
  | finished
deriving DecidableEq, Repr

/-- Semaphore counter plus the phase of each launched pipeline. -/
structure GovState where
  avail : Nat
  phases : List Phase
deriving DecidableEq, Repr

/-- The two kinds of transitions: `acquire()` returning (only when a slot
is free — `asyncio.Semaphore` suspends otherwise), and a pipeline leaving
the `async with` block (return or raise), which releases the slot. -/
inductive GovStep : GovState → GovState → Prop where
  | acquire (s : GovState) (i : Nat) (h : s.phases.get? i = some Phase.waiting)
      (hav : 0 < s.avail) :
      GovStep s ⟨s.avail - 1, s.phases.set i Phase.holding⟩
  | finish (s : GovState) (i : Nat) (h : s.phases.get? i = some Phase.holding) :
      GovStep s ⟨s.avail + 1, s.phases.set i Phase.finished⟩

/-- Initial state: `m` pipelines launched against a capacity-`n` semaphore. -/
def govInit (n m : Nat) : GovState :=
  ⟨n, List.replicate m Phase.waiting⟩

/-- States reachable from the initial state. -/
inductive GovReachable (n m : Nat) : GovState → Prop where
  | init : GovReachable n m (govInit n m)
  | step {s t : GovState} : GovReachable n m s → GovStep s t → GovReachable n m t

/-- Number of pipelines currently between `acquire()` and `release()`. -/
def holdingCount (s : GovState) : Nat :=
  s.phases.count Phase.holding



/-! ## Document deletion

`IngestionService.delete_document` (lines 887-948): look the record up,
then best-effort deletes against object storage and the vector store
(each in its own `try/except` that logs and swallows), then the MongoDB
delete, then `{"document_id": ..., "deleted": True}`. -/

/-- The stored document fields `delete_document` reads. -/
structure StoredDoc where
  file_key : Option String
  organization_id : Option String
deriving DecidableEq, Repr

/-- Deletion effects that actually happened. -/
inductive DeleteEvent where
  | storageDelete (key : String)
  | chunksDelete (documentId : String) (ns : Option String)
  | recordDelete (documentId : String)
deriving DecidableEq, Repr

/-- Collaborator behaviour for one `delete_document` call. -/
structure DeleteEnv where
  /-- Result of the MongoDB `find`. -/
  found : Option StoredDoc
  /-- Set to `some msg` when `idrivee2_client.delete_file` raises. -/
  storageError : Option String
  /-- Set to `some msg` when `pinecone_client.delete_documents` raises. -/
  pineconeError : Option String

/-- The body of `delete_document`.  A `file_key` equal to the empty string is
falsy in Python, so the storage delete is skipped for it as well. -/
def deleteDocument (documentId : String) (deleteFromStorage : Bool)
    (env : DeleteEnv) : List DeleteEvent × Except String (String × Bool) :=
  match env.found with
  | none => ([], Except.error ("Document not found: " ++ documentId))
  | some doc =>
    let storageEvs : List DeleteEvent :=
      if deleteFromStorage then
        match doc.file_key with
        | some key =>
          if key = "" then []
          else
            match env.storageError with
            | none => [DeleteEvent.storageDelete key]
            | some _ => []
        | none => []
      else []
    let chunkEvs : List DeleteEvent :=
      match env.pineconeError with
      | none => [DeleteEvent.chunksDelete documentId doc.organization_id]
      | some _ => []
    (storageEvs ++ chunkEvs ++ [DeleteEvent.recordDelete documentId],
      Except.ok (documentId, true))

/-! ## Concrete scenarios

Inputs used to evaluate the embedded code at specific points. -/

/-- A plain text file whose whole pipeline succeeds. -/
def cTextEnv : FileEnv :=
  { filename := "notes.txt"
    safeFilename := "notes.txt"
    fileSizeMb := 1
    newDocId := "d0"
    uploadError := none
    extractResult := ExtractResult.text "hi"
    pineconeError := fun _ => none
    preSplit := fun s => [s]
    semanticSplit := fun s => [s]
    tokenCount := fun _ => 2 }

/-- A text file whose extraction raises. -/
def cFailEnv : FileEnv :=
  { filename := "bad.txt"
    safeFilename := "bad.txt"
    fileSizeMb := 1
    newDocId := "d1"
    uploadError := none
    extractResult := ExtractResult.failure "boom"
    pineconeError := fun _ => none
    preSplit := fun s => [s]
    semanticSplit := fun s => [s]
    tokenCount := fun _ => 0 }

/-- A second succeeding text file, sibling of `cFailEnv` in a batch. -/
def cTextEnv2 : FileEnv :=
  { filename := "more.txt"
    safeFilename := "more.txt"
    fileSizeMb := 2
    newDocId := "d2"
    uploadError := none
    extractResult := ExtractResult.text "ho"
    pineconeError := fun _ => none
    preSplit := fun s => [s]
    semanticSplit := fun s => [s]
    tokenCount := fun _ => 2 }

/-- One pre-built video scene chunk. -/
def cVideoChunk : VideoChunk :=
  { blended_text := "scene text"
    video_id := "vid"
    video_name := "clip.mp4"
    clip_start := 0
    clip_end := 2
    duration := 2
    key_frame_timestamp := 1
    chunk_id := 0
    keyframe_file_key := none }

/-- A video file processed without a user id. -/
def cVideoEnv : FileEnv :=
  { filename := "clip.mp4"
    safeFilename := "clip.mp4"
    fileSizeMb := 5
    newDocId := "d3"
    uploadError := none
    extractResult := ExtractResult.video "combined" [cVideoChunk]
    pineconeError := fun _ => none
    preSplit := fun s => [s]
    semanticSplit := fun s => [s]
    tokenCount := fun _ => 3 }

/-- The spec's key-frame example scene: frames 100-200 over 4.0s-8.0s. -/
def c6Scene : Scene :=
  { scene_id := 0
    start_frame := 100
    end_frame := 200
    start_time := 4
    end_time := 8 }

/-- A Whisper backend returning one segment for the second 10-minute
window and nothing elsewhere. -/
def c7oracle : Nat → Nat → List TSeg :=
  fun s _ => if s = 600000 then [{ start := 15, stop := 20, text := "hello" }] else []

/-- A stored document whose storage and vector deletions will both fail. -/
def cStoredDoc : StoredDoc :=
  { file_key := some "org1/fold/notes.txt", organization_id := some "org1" }

/-- Collaborators for `delete_document` where both best-effort deletes
raise. -/
def cDeleteEnv : DeleteEnv :=
  { found := some cStoredDoc
    storageError := some "s3 down"
    pineconeError := some "pinecone down" }



/-- The three-file batch of the failure-isolation scenario: a succeeding
file, a file whose extraction raises, and another succeeding file. -/
def c1Envs : List FileEnv := [cTextEnv, cFailEnv, cTextEnv2]

/-- A governor state with one pipeline holding a slot, reached from
`govInit 2 2` by one `acquire`. -/
def c2State : GovState :=
  { avail := 1, phases := [Phase.holding, Phase.waiting] }


/-! ## Theorems -/

theorem digitChar_injOn {d e : Nat} (hd : d < 10) (he : e < 10)
    (h : digitChar d = digitChar e) : d = e := by
  interval_cases d <;> interval_cases e <;> revert h <;> decide

theorem digitChar_isDigit {d : Nat} (hd : d < 10) : (digitChar d).isDigit := by
  interval_cases d <;> decide

/-- Mapping `digitChar` over lists of decimal digits is injective. -/
theorem map_digitChar_inj : ∀ {xs ys : List Nat},
    (∀ x ∈ xs, x < 10) → (∀ y ∈ ys, y < 10) →
    xs.map digitChar = ys.map digitChar → xs = ys := by
  intro xs
  induction xs with
  | nil =>
    intro ys _ _ h
    cases ys with
    | nil => rfl
    | cons y ys => simp at h
  | cons x xs ih =>
    intro ys hxs hys h
    cases ys with
    | nil => simp at h
    | cons y ys =>
      simp only [List.map_cons, List.cons.injEq] at h
      have hx : x < 10 := hxs x (List.mem_cons_self x xs)
      have hy : y < 10 := hys y (List.mem_cons_self y ys)
      have hxy : x = y := digitChar_injOn hx hy h.1
      have htl : xs = ys :=
        ih (fun a ha => hxs a (List.mem_cons_of_mem x ha))
          (fun a ha => hys a (List.mem_cons_of_mem y ha)) h.2
      rw [hxy, htl]

theorem decRepr_digits {n : Nat} :
    ∀ c ∈ (decRepr n).data, c.isDigit := by
  intro c hc
  unfold decRepr at hc
  by_cases h : n = 0
  · simp [h] at hc
    subst hc
    decide
  · simp [h, String.mk] at hc
    obtain ⟨d, hd, rfl⟩ := hc
    exact digitChar_isDigit (Nat.digits_lt_base (by norm_num) hd)

/-- Injectivity of `decRepr`: distinct naturals format to distinct decimal
strings. -/
theorem decRepr_inj {m n : Nat} (h : decRepr m = decRepr n) : m = n := by
  unfold decRepr at h
  by_cases hm : m = 0 <;> by_cases hn : n = 0
  · rw [hm, hn]
  · exfalso
    simp only [hm, if_pos rfl, if_neg hn] at h
    have hdata : ['0'] = ((Nat.digits 10 n).reverse).map digitChar := by
      have := congrArg String.data h
      simpa [String.mk] using this
    have hlen : ((Nat.digits 10 n).reverse).length = 1 := by
      rw [← List.length_map ((Nat.digits 10 n).reverse) digitChar, ← hdata]
      rfl
    obtain ⟨d, hds⟩ : ∃ d, (Nat.digits 10 n).reverse = [d] := by
      cases hrev : (Nat.digits 10 n).reverse with
      | nil => rw [hrev] at hlen; simp at hlen
      | cons a l =>
        rw [hrev] at hlen
        simp at hlen
        exact ⟨a, by rw [hlen]⟩
    rw [hds] at hdata
    simp at hdata
    have hdlt : d < 10 := by
      have : d ∈ Nat.digits 10 n := by
        have : d ∈ (Nat.digits 10 n).reverse := by rw [hds]; exact List.mem_singleton.mpr rfl
        exact List.mem_reverse.mp this
      exact Nat.digits_lt_base (by norm_num) this
    have hchar : digitChar d = digitChar 0 := by
      have h0 : digitChar 0 = '0' := by decide
      rw [h0]
      exact hdata.symm
    have hd0 : d = 0 := digitChar_injOn hdlt (by norm_num) hchar
    have hdig : Nat.digits 10 n = [0] := by
      have := congrArg List.reverse hds
      simpa [hd0] using this
    have : n = 0 := by
      have := Nat.ofDigits_digits 10 n
      rw [hdig] at this
      simpa using this.symm
    exact hn this
  · exfalso
    simp only [hn, if_pos rfl, if_neg hm] at h
    have hdata : ((Nat.digits 10 m).reverse).map digitChar = ['0'] := by
      have := congrArg String.data h
      simpa [String.mk] using this
    have hlen : ((Nat.digits 10 m).reverse).length = 1 := by
      rw [← List.length_map ((Nat.digits 10 m).reverse) digitChar, hdata]
      rfl
    obtain ⟨d, hds⟩ : ∃ d, (Nat.digits 10 m).reverse = [d] := by
      cases hrev : (Nat.digits 10 m).reverse with
      | nil => rw [hrev] at hlen; simp at hlen
      | cons a l =>
        rw [hrev] at hlen
        simp at hlen
        exact ⟨a, by rw [hlen]⟩
    rw [hds] at hdata
    simp at hdata
    have hdlt : d < 10 := by
      have : d ∈ Nat.digits 10 m := by
        have : d ∈ (Nat.digits 10 m).reverse := by rw [hds]; exact List.mem_singleton.mpr rfl
        exact List.mem_reverse.mp this
      exact Nat.digits_lt_base (by norm_num) this
    have hchar : digitChar d = digitChar 0 := by
      have h0 : digitChar 0 = '0' := by decide
      rw [h0]
      exact hdata
    have hd0 : d = 0 := digitChar_injOn hdlt (by norm_num) hchar
    have hdig : Nat.digits 10 m = [0] := by
      have := congrArg List.reverse hds
      simpa [hd0] using this
    have : m = 0 := by
      have := Nat.ofDigits_digits 10 m
      rw [hdig] at this
      simpa using this.symm
    exact hm this
  · simp only [if_neg hm, if_neg hn] at h
    have hdata := congrArg String.data h
    simp only [String.mk] at hdata
    have hrev := map_digitChar_inj
      (fun x hx => Nat.digits_lt_base (by norm_num) (List.mem_reverse.mp hx))
      (fun y hy => Nat.digits_lt_base (by norm_num) (List.mem_reverse.mp hy)) hdata
    have hdig : Nat.digits 10 m = Nat.digits 10 n :=
      List.reverse_injective hrev
    exact Nat.digits.injective 10 hdig

/-- No decimal numeral contains an underscore. -/
theorem decRepr_no_underscore {n : Nat} : ∀ c ∈ (decRepr n).data, c ≠ '_' := by
  intro c hc
  have := decRepr_digits c hc
  intro hcu
  rw [hcu] at this
  exact absurd this (by decide)

/-- Unique splitting at an underscore: when neither side list contains an
underscore, a decomposition `A ++ underscore :: X` is unique. -/
theorem append_underscore_split : ∀ {A C X Y : List Char},
    (∀ c ∈ A, c ≠ '_') → (∀ c ∈ C, c ≠ '_') →
    A ++ '_' :: X = C ++ '_' :: Y → A = C ∧ X = Y := by
  intro A
  induction A with
  | nil =>
    intro C X Y _ hC h
    cases C with
    | nil => simpa using h
    | cons c cs =>
      exfalso
      simp only [List.nil_append, List.cons_append, List.cons.injEq] at h
      exact hC c (List.mem_cons_self c cs) h.1.symm
  | cons a as ih =>
    intro C X Y hA hC h
    cases C with
    | nil =>
      exfalso
      simp only [List.cons_append, List.nil_append, List.cons.injEq] at h
      exact hA a (List.mem_cons_self a as) h.1
    | cons c cs =>
      simp only [List.cons_append, List.cons.injEq] at h
      have htl := ih (fun x hx => hA x (List.mem_cons_of_mem a hx))
        (fun x hx => hC x (List.mem_cons_of_mem c hx)) h.2
      exact ⟨by rw [h.1, htl.1], htl.2⟩

theorem mkChunkId_inj (d : String) (p i q j : Nat) :
    mkChunkId d p i = mkChunkId d q j ↔ p = q ∧ i = j := by
  constructor
  · intro h
    have hdata := congrArg String.data h
    have hpre : "_pre".data = ['_', 'p', 'r', 'e'] := rfl
    have hchunk : "_chunk".data = ['_', 'c', 'h', 'u', 'n', 'k'] := rfl
    simp only [mkChunkId, String.data_append, hpre, hchunk] at hdata
    have hdata' : d.data ++ ('_' :: 'p' :: 'r' :: 'e' ::
          ((decRepr p).data ++ '_' :: 'c' :: 'h' :: 'u' :: 'n' :: 'k' :: (decRepr i).data))
        = d.data ++ ('_' :: 'p' :: 'r' :: 'e' ::
          ((decRepr q).data ++ '_' :: 'c' :: 'h' :: 'u' :: 'n' :: 'k' :: (decRepr j).data)) := by
      simpa [List.append_assoc] using hdata
    have h2 : (decRepr p).data ++ '_' :: 'c' :: 'h' :: 'u' :: 'n' :: 'k' :: (decRepr i).data
        = (decRepr q).data ++ '_' :: 'c' :: 'h' :: 'u' :: 'n' :: 'k' :: (decRepr j).data := by
      have := List.append_cancel_left hdata'
      simpa using this
    have hsplit := append_underscore_split
      (fun c hc => decRepr_no_underscore c hc)
      (fun c hc => decRepr_no_underscore c hc) h2
    have hp : p = q := decRepr_inj (congrArg String.mk hsplit.1)
    have hij : (decRepr i).data = (decRepr j).data := by
      have := hsplit.2
      simpa using this
    have hi : i = j := decRepr_inj (congrArg String.mk hij)
    exact ⟨hp, hi⟩
  · intro h
    rw [h.1, h.2]

theorem mkVideoChunkId_inj (d : String) (c c' : Nat) :
    mkVideoChunkId d c = mkVideoChunkId d c' ↔ c = c' := by
  constructor
  · intro h
    have hdata := congrArg String.data h
    have hund : "_".data = ['_'] := rfl
    simp only [mkVideoChunkId, String.data_append, hund] at hdata
    have hdata' : d.data ++ ('_' :: (decRepr c).data)
        = d.data ++ ('_' :: (decRepr c').data) := by
      simpa [List.append_assoc] using hdata
    have h1 : (decRepr c).data = (decRepr c').data := by
      have := List.append_cancel_left hdata'
      simpa using this
    exact decRepr_inj (congrArg String.mk h1)
  · intro h
    rw [h]


theorem stageTrace_append (a b : List Event) :
    stageTrace (a ++ b) = stageTrace a ++ stageTrace b := by
  simp [stageTrace, List.filterMap_append]

theorem stageTrace_nil : stageTrace [] = [] := rfl

theorem stageTrace_insertDoc (i : String) (s : DocStatus) (st : Stage) (l : List Event) :
    stageTrace (Event.insertDoc i s st :: l) = st :: stageTrace l := rfl

theorem stageTrace_updateStatus_some (i : String) (s : Option DocStatus) (st : Stage)
    (e : Option String) (l : List Event) :
    stageTrace (Event.updateStatus i s (some st) e :: l) = st :: stageTrace l := rfl

theorem stageTrace_updateStatus_none (i : String) (s : Option DocStatus)
    (e : Option String) (l : List Event) :
    stageTrace (Event.updateStatus i s none e :: l) = stageTrace l := rfl

theorem stageTrace_updateContent_some (i : String) (st : Stage) (l : List Event) :
    stageTrace (Event.updateContent i (some st) :: l) = st :: stageTrace l := rfl

theorem stageTrace_uploadFile (k : String) (l : List Event) :
    stageTrace (Event.uploadFile k :: l) = stageTrace l := rfl

theorem stageTrace_extract (l : List Event) :
    stageTrace (Event.extractContent :: l) = stageTrace l := rfl

theorem stageTrace_upsert (ids : List String) (mds : List Metadata) (ns : Option String)
    (l : List Event) :
    stageTrace (Event.upsertChunks ids mds ns :: l) = stageTrace l := rfl

theorem upsertPreChunks_stageTrace (env : FileEnv) (docId : String) (ns : Option String) :
    ∀ (pcs : List (String × Metadata)) (k tot : Nat),
      stageTrace (upsertPreChunks env docId ns pcs k tot).1 = [] := by
  intro pcs
  induction pcs with
  | nil => intro k tot; simp [upsertPreChunks, stageTrace]
  | cons pc rest ih =>
    intro k tot
    unfold upsertPreChunks
    cases hp : env.pineconeError k with
    | some m => simp [hp, stageTrace]
    | none =>
      simp only [hp]
      rw [stageTrace_upsert]
      exact ih (k + 1) (tot + (chunkWithMetadata env.semanticSplit pc.1 pc.2).length)

theorem stage_trace_chain (folderName : String) (userId organizationId : Option String)
    (additional : Metadata) (env : FileEnv) :
    List.Chain' (fun a b => stageIdx a < stageIdx b)
      (stageTrace (processSingleDocument folderName userId organizationId additional env).events) := by
  unfold processSingleDocument
  cases hu : env.uploadError with
  | some m =>
    simp [hu, failWith, stageTrace_insertDoc, stageTrace_updateStatus_some,
      stageTrace_updateStatus_none, stageTrace_nil]
    decide
  | none =>
    cases hx : env.extractResult with
    | failure m =>
      simp [hu, hx, failWith, stageTrace_insertDoc, stageTrace_updateStatus_some,
        stageTrace_updateStatus_none, stageTrace_uploadFile, stageTrace_nil]
      decide
    | video c ch =>
      by_cases hv : c = "" ∨ ch = []
      · simp [hu, hx, hv, failWith, stageTrace_insertDoc, stageTrace_updateStatus_some,
          stageTrace_updateStatus_none, stageTrace_uploadFile, stageTrace_extract,
          stageTrace_nil]
        decide
      · cases hp : env.pineconeError 0 with
        | some m =>
          simp [hu, hx, hv, hp, failWith, stageTrace_insertDoc, stageTrace_updateStatus_some,
            stageTrace_updateStatus_none, stageTrace_uploadFile, stageTrace_extract,
            stageTrace_updateContent_some, stageTrace_nil]
          decide
        | none =>
          simp [hu, hx, hv, hp, stageTrace_insertDoc, stageTrace_updateStatus_some,
            stageTrace_updateStatus_none, stageTrace_uploadFile, stageTrace_extract,
            stageTrace_updateContent_some, stageTrace_upsert, stageTrace_nil]
          decide
    | text content =>
      by_cases hval : validateExtractedContent content
      · cases hl : (upsertPreChunks env env.newDocId organizationId
            (prepareContentForVectorization env.preSplit content
              (baseMetadata env.newDocId env.filename folderName
                (mkFileKey organizationId folderName env.safeFilename) userId additional)) 0 0).2.2 with
        | some m =>
          simp [hu, hx, hval, hl, failWith, stageTrace_append, stageTrace_insertDoc,
            stageTrace_updateStatus_some, stageTrace_updateStatus_none, stageTrace_uploadFile,
            stageTrace_extract, stageTrace_updateContent_some, stageTrace_nil,
            upsertPreChunks_stageTrace env env.newDocId organizationId]
          decide
        | none =>
          simp [hu, hx, hval, hl, stageTrace_append, stageTrace_insertDoc,
            stageTrace_updateStatus_some, stageTrace_updateStatus_none, stageTrace_uploadFile,
            stageTrace_extract, stageTrace_updateContent_some, stageTrace_nil,
            upsertPreChunks_stageTrace env env.newDocId organizationId]
          decide
      · simp [hu, hx, hval, failWith, stageTrace_insertDoc, stageTrace_updateStatus_some,
          stageTrace_updateStatus_none, stageTrace_uploadFile, stageTrace_extract,
          stageTrace_nil]
        decide

theorem processSingle_fail_state (folderName : String) (userId organizationId : Option String)
    (additional : Metadata) (env : FileEnv) (msg : String)
    (h : (processSingleDocument folderName userId organizationId additional env).outcome
      = Except.error msg) :
    (processSingleDocument folderName userId organizationId additional env).record.status
        = DocStatus.failed ∧
    (processSingleDocument folderName userId organizationId additional env).record.processing_stage
        = Stage.failed ∧
    (processSingleDocument folderName userId organizationId additional env).record.error = some msg := by
  unfold processSingleDocument at h ⊢
  cases hu : env.uploadError with
  | some m => simp [hu, failWith] at h ⊢; simp [h]
  | none =>
    cases hx : env.extractResult with
    | failure m => simp [hu, hx, failWith] at h ⊢; simp [h]
    | video c ch =>
      by_cases hv : c = "" ∨ ch = []
      · simp [hu, hx, hv, failWith] at h ⊢; simp [h]
      · cases hp : env.pineconeError 0 with
        | some m => simp [hu, hx, hv, hp, failWith] at h ⊢; simp [h]
        | none => simp [hu, hx, hv, hp, failWith] at h
    | text content =>
      by_cases hval : validateExtractedContent content
      · cases hl : (upsertPreChunks env env.newDocId organizationId
            (prepareContentForVectorization env.preSplit content
              (baseMetadata env.newDocId env.filename folderName
                (mkFileKey organizationId folderName env.safeFilename) userId additional)) 0 0).2.2 with
        | some m => simp [hu, hx, hval, hl, failWith] at h ⊢; simp [h]
        | none => simp [hu, hx, hval, hl, failWith] at h
      · simp [hu, hx, hval, failWith] at h ⊢; simp [h]

theorem processSingle_ok_state (folderName : String) (userId organizationId : Option String)
    (additional : Metadata) (env : FileEnv) (r : SingleResult)
    (h : (processSingleDocument folderName userId organizationId additional env).outcome
      = Except.ok r) :
    (processSingleDocument folderName userId organizationId additional env).record.status
        = DocStatus.completed ∧
    (processSingleDocument folderName userId organizationId additional env).record.processing_stage
        = Stage.completed ∧
    (processSingleDocument folderName userId organizationId additional env).record.error = none := by
  unfold processSingleDocument at h ⊢
  cases hu : env.uploadError with
  | some m => simp [hu, failWith] at h
  | none =>
    cases hx : env.extractResult with
    | failure m => simp [hu, hx, failWith] at h
    | video c ch =>
      by_cases hv : c = "" ∨ ch = []
      · simp [hu, hx, hv, failWith] at h
      · cases hp : env.pineconeError 0 with
        | some m => simp [hu, hx, hv, hp, failWith] at h
        | none => simp [hu, hx, hv, hp]
    | text content =>
      by_cases hval : validateExtractedContent content
      · cases hl : (upsertPreChunks env env.newDocId organizationId
            (prepareContentForVectorization env.preSplit content
              (baseMetadata env.newDocId env.filename folderName
                (mkFileKey organizationId folderName env.safeFilename) userId additional)) 0 0).2.2 with
        | some m => simp [hu, hx, hval, hl, failWith] at h
        | none => simp [hu, hx, hval, hl]
      · simp [hu, hx, hval, failWith] at h

theorem file_key_from_sanitized_name (folderName : String) (userId organizationId : Option String)
    (additional : Metadata) (env : FileEnv) :
    (processSingleDocument folderName userId organizationId additional env).record.file_key
      = mkFileKey organizationId folderName env.safeFilename := by
  unfold processSingleDocument
  cases hu : env.uploadError with
  | some m => simp [hu, failWith]
  | none =>
    cases hx : env.extractResult with
    | failure m => simp [hu, hx, failWith]
    | video c ch =>
      by_cases hv : c = "" ∨ ch = []
      · simp [hu, hx, hv, failWith]
      · cases hp : env.pineconeError 0 with
        | some m => simp [hu, hx, hv, hp, failWith]
        | none => simp [hu, hx, hv, hp]
    | text content =>
      by_cases hval : validateExtractedContent content
      · cases hl : (upsertPreChunks env env.newDocId organizationId
            (prepareContentForVectorization env.preSplit content
              (baseMetadata env.newDocId env.filename folderName
                (mkFileKey organizationId folderName env.safeFilename) userId additional)) 0 0).2.2 with
        | some m => simp [hu, hx, hval, hl, failWith]
        | none => simp [hu, hx, hval, hl]
      · simp [hu, hx, hval, failWith]

theorem record_precedes_work (folderName : String) (userId organizationId : Option String)
    (additional : Metadata) (env : FileEnv) :
    (processFileWithErrorHandling folderName userId organizationId additional env).1.take 2
      = [Event.semAcquire,
         Event.insertDoc env.newDocId DocStatus.processing Stage.initializing] := by
  unfold processFileWithErrorHandling processSingleDocument
  cases hu : env.uploadError with
  | some m => simp [hu, failWith]
  | none =>
    cases hx : env.extractResult with
    | failure m => simp [hu, hx, failWith]
    | video c ch =>
      by_cases hv : c = "" ∨ ch = []
      · simp [hu, hx, hv, failWith]
      · cases hp : env.pineconeError 0 with
        | some m => simp [hu, hx, hv, hp, failWith]
        | none => simp [hu, hx, hv, hp]
    | text content =>
      by_cases hval : validateExtractedContent content
      · cases hl : (upsertPreChunks env env.newDocId organizationId
            (prepareContentForVectorization env.preSplit content
              (baseMetadata env.newDocId env.filename folderName
                (mkFileKey organizationId folderName env.safeFilename) userId additional)) 0 0).2.2 with
        | some m => simp [hu, hx, hval, hl, failWith]
        | none => simp [hu, hx, hval, hl]
      · simp [hu, hx, hval, failWith]

theorem stage_trace_failed_last (folderName : String) (userId organizationId : Option String)
    (additional : Metadata) (env : FileEnv) (msg : String)
    (h : (processSingleDocument folderName userId organizationId additional env).outcome
      = Except.error msg) :
    (stageTrace (processSingleDocument folderName userId organizationId additional env).events).getLast?
      = some Stage.failed := by
  unfold processSingleDocument at h ⊢
  cases hu : env.uploadError with
  | some m =>
    simp [hu, failWith, stageTrace_insertDoc, stageTrace_updateStatus_some,
      stageTrace_updateStatus_none, stageTrace_nil]
  | none =>
    cases hx : env.extractResult with
    | failure m =>
      simp [hu, hx, failWith, stageTrace_insertDoc, stageTrace_updateStatus_some,
        stageTrace_updateStatus_none, stageTrace_uploadFile, stageTrace_nil]
    | video c ch =>
      by_cases hv : c = "" ∨ ch = []
      · simp [hu, hx, hv, failWith, stageTrace_insertDoc, stageTrace_updateStatus_some,
          stageTrace_updateStatus_none, stageTrace_uploadFile, stageTrace_extract,
          stageTrace_nil]
      · cases hp : env.pineconeError 0 with
        | some m =>
          simp [hu, hx, hv, hp, failWith, stageTrace_insertDoc, stageTrace_updateStatus_some,
            stageTrace_updateStatus_none, stageTrace_uploadFile, stageTrace_extract,
            stageTrace_updateContent_some, stageTrace_nil]
        | none => simp [hu, hx, hv, hp] at h
    | text content =>
      by_cases hval : validateExtractedContent content
      · cases hl : (upsertPreChunks env env.newDocId organizationId
            (prepareContentForVectorization env.preSplit content
              (baseMetadata env.newDocId env.filename folderName
                (mkFileKey organizationId folderName env.safeFilename) userId additional)) 0 0).2.2 with
        | some m =>
          simp [hu, hx, hval, hl, failWith, stageTrace_append, stageTrace_insertDoc,
            stageTrace_updateStatus_some, stageTrace_updateStatus_none, stageTrace_uploadFile,
            stageTrace_extract, stageTrace_updateContent_some, stageTrace_nil,
            upsertPreChunks_stageTrace env env.newDocId organizationId]
        | none => simp [hu, hx, hval, hl] at h
      · simp [hu, hx, hval, failWith, stageTrace_insertDoc, stageTrace_updateStatus_some,
          stageTrace_updateStatus_none, stageTrace_uploadFile, stageTrace_extract,
          stageTrace_nil]

theorem stage_trace_success_video (folderName : String) (userId organizationId : Option String)
    (additional : Metadata) (env : FileEnv) (r : SingleResult)
    (c : String) (ch : List VideoChunk)
    (h : (processSingleDocument folderName userId organizationId additional env).outcome
      = Except.ok r)
    (hvid : env.extractResult = ExtractResult.video c ch) :
    stageTrace (processSingleDocument folderName userId organizationId additional env).events
      = [Stage.initializing, Stage.uploading_extracting, Stage.content_extracted,
         Stage.embedding, Stage.completed] := by
  unfold processSingleDocument at h ⊢
  cases hu : env.uploadError with
  | some m => simp [hu, failWith] at h
  | none =>
    rw [hvid] at h ⊢
    by_cases hv : c = "" ∨ ch = []
    · simp [hu, hv, failWith] at h
    · cases hp : env.pineconeError 0 with
      | some m => simp [hu, hv, hp, failWith] at h
      | none =>
        simp [hu, hv, hp, stageTrace_insertDoc, stageTrace_updateStatus_some,
          stageTrace_updateStatus_none, stageTrace_uploadFile, stageTrace_extract,
          stageTrace_updateContent_some, stageTrace_upsert, stageTrace_nil]

theorem stage_trace_success_text (folderName : String) (userId organizationId : Option String)
    (additional : Metadata) (env : FileEnv) (r : SingleResult) (content : String)
    (h : (processSingleDocument folderName userId organizationId additional env).outcome
      = Except.ok r)
    (htext : env.extractResult = ExtractResult.text content) :
    stageTrace (processSingleDocument folderName userId organizationId additional env).events
      = [Stage.initializing, Stage.uploading_extracting, Stage.content_extracted,
         Stage.completed] := by
  unfold processSingleDocument at h ⊢
  cases hu : env.uploadError with
  | some m => simp [hu, failWith] at h
  | none =>
    rw [htext] at h ⊢
    by_cases hval : validateExtractedContent content
    · cases hl : (upsertPreChunks env env.newDocId organizationId
          (prepareContentForVectorization env.preSplit content
            (baseMetadata env.newDocId env.filename folderName
              (mkFileKey organizationId folderName env.safeFilename) userId additional)) 0 0).2.2 with
      | some m => simp [hu, hval, hl, failWith] at h
      | none =>
        simp [hu, hval, hl, stageTrace_append, stageTrace_insertDoc,
          stageTrace_updateStatus_some, stageTrace_updateStatus_none, stageTrace_uploadFile,
          stageTrace_extract, stageTrace_updateContent_some, stageTrace_nil,
          upsertPreChunks_stageTrace env env.newDocId organizationId]
    · simp [hu, hval, failWith] at h

theorem nullFree_metaInsert {m : Metadata} {k : String} {v : MValue}
    (hm : nullFree m) (hv : v ≠ MValue.null) : nullFree (metaInsert m k v) := by
  induction m with
  | nil =>
    intro kv hkv
    simp [metaInsert] at hkv
    rw [hkv]
    exact hv
  | cons a rest ih =>
    intro kv hkv
    unfold metaInsert at hkv
    by_cases ha : (a.1 == k) = true
    · simp [ha] at hkv
      rcases hkv with h1 | h2
      · rw [h1]; exact hv
      · exact hm kv (List.mem_cons_of_mem a h2)
    · simp [ha] at hkv
      rcases hkv with h1 | h2
      · rw [h1]; exact hm a (List.mem_cons_self a rest)
      · exact ih (fun x hx => hm x (List.mem_cons_of_mem a hx)) kv h2

theorem nullFree_metaMerge {extra : Metadata} (he : nullFree extra) :
    ∀ {m : Metadata}, nullFree m → nullFree (metaMerge m extra) := by
  induction extra with
  | nil => intro m hm; simpa [metaMerge] using hm
  | cons kv rest ih =>
    intro m hm
    have hkv : kv.2 ≠ MValue.null := he kv (List.mem_cons_self kv rest)
    have hrest : nullFree rest := fun x hx => he x (List.mem_cons_of_mem kv hx)
    have : metaMerge m (kv :: rest) = metaMerge (metaInsert m kv.1 kv.2) rest := by
      simp [metaMerge]
    rw [this]
    exact ih hrest (nullFree_metaInsert hm hkv)

theorem metaGet_cons (a : String × MValue) (l : Metadata) (k : String) :
    metaGet (a :: l) k = if a.1 == k then some a.2 else metaGet l k := by
  by_cases h : (a.1 == k) = true
  · simp [metaGet, List.find?_cons_of_pos _ h, h]
  · have h2 : ¬ ((fun kv => kv.1 == k) a = true) := h
    simp only [Bool.not_eq_true] at h
    simp [metaGet, List.find?_cons_of_neg _ h2, h]

theorem metaGet_metaInsert_self (m : Metadata) (k : String) (v : MValue) :
    metaGet (metaInsert m k v) k = some v := by
  induction m with
  | nil => simp [metaInsert, metaGet_cons]
  | cons a rest ih =>
    unfold metaInsert
    by_cases ha : (a.1 == k) = true
    · simp [ha, metaGet_cons]
    · simp [ha, metaGet_cons, ih]

theorem metaGet_metaInsert_ne (m : Metadata) {k k2 : String} (v : MValue)
    (h : k2 ≠ k) : metaGet (metaInsert m k v) k2 = metaGet m k2 := by
  have hne : (k == k2) = false := by
    simp
    exact fun e => h e.symm
  induction m with
  | nil => simp [metaInsert, metaGet_cons, hne, metaGet]
  | cons a rest ih =>
    unfold metaInsert
    by_cases ha : (a.1 == k) = true
    · have hak : a.1 = k := by simpa using ha
      simp [ha, metaGet_cons, hne, hak]
    · simp [ha, metaGet_cons, ih]

theorem metaGet_metaMerge_notin {extra : Metadata} {k : String}
    (h : ∀ kv ∈ extra, kv.1 ≠ k) :
    ∀ (m : Metadata), metaGet (metaMerge m extra) k = metaGet m k := by
  induction extra with
  | nil => intro m; simp [metaMerge]
  | cons kv rest ih =>
    intro m
    have hk : kv.1 ≠ k := h kv (List.mem_cons_self kv rest)
    have hrest : ∀ x ∈ rest, x.1 ≠ k := fun x hx => h x (List.mem_cons_of_mem kv hx)
    have hstep : metaMerge m (kv :: rest) = metaMerge (metaInsert m kv.1 kv.2) rest := by
      simp [metaMerge]
    rw [hstep, ih hrest, metaGet_metaInsert_ne m kv.2 (fun e => hk e.symm)]

theorem videoChunkMetadata_nullFree (documentId fileName folderName fileKey : String)
    (u : String) {additional : Metadata} (hadd : nullFree additional) (c : VideoChunk) :
    nullFree (videoChunkMetadata documentId fileName folderName fileKey (some u) additional c) := by
  unfold videoChunkMetadata
  have hbase : nullFree
      [("document_id", MValue.str documentId),
       ("file_name", MValue.str fileName),
       ("folder_name", MValue.str folderName),
       ("file_key", MValue.str fileKey),
       ("user_id", MValue.ofOpt (some u)),
       ("video_id", MValue.str c.video_id),
       ("video_name", MValue.str c.video_name),
       ("clip_start", MValue.rat c.clip_start),
       ("clip_end", MValue.rat c.clip_end),
       ("duration", MValue.rat c.duration),
       ("key_frame_timestamp", MValue.rat c.key_frame_timestamp),
       ("scene_id", MValue.nat c.chunk_id)] := by
    intro kv hkv
    simp [MValue.ofOpt] at hkv
    rcases hkv with h | h | h | h | h | h | h | h | h | h | h | h <;> simp [h]
  have hmerged := nullFree_metaMerge hadd hbase
  cases hk : c.keyframe_file_key with
  | none => simpa [hk] using hmerged
  | some key =>
    simp only [hk]
    exact nullFree_metaInsert hmerged (by simp)

theorem videoChunkMetadata_docId (documentId fileName folderName fileKey : String)
    (userId : Option String) {additional : Metadata}
    (hadd : ∀ kv ∈ additional, kv.1 ≠ "document_id") (c : VideoChunk) :
    metaGet (videoChunkMetadata documentId fileName folderName fileKey userId additional c)
      "document_id" = some (MValue.str documentId) := by
  unfold videoChunkMetadata
  have hbase : metaGet
      [("document_id", MValue.str documentId),
       ("file_name", MValue.str fileName),
       ("folder_name", MValue.str folderName),
       ("file_key", MValue.str fileKey),
       ("user_id", MValue.ofOpt userId),
       ("video_id", MValue.str c.video_id),
       ("video_name", MValue.str c.video_name),
       ("clip_start", MValue.rat c.clip_start),
       ("clip_end", MValue.rat c.clip_end),
       ("duration", MValue.rat c.duration),
       ("key_frame_timestamp", MValue.rat c.key_frame_timestamp),
       ("scene_id", MValue.nat c.chunk_id)] "document_id"
      = some (MValue.str documentId) := by
    simp [metaGet_cons]
  have hmerged := metaGet_metaMerge_notin hadd
  cases hk : c.keyframe_file_key with
  | none =>
    simp only [hk]
    rw [hmerged, hbase]
  | some key =>
    simp only [hk]
    rw [metaGet_metaInsert_ne _ _ (by decide), hmerged, hbase]

theorem upsertMetadatas_append (a b : List Event) :
    upsertMetadatas (a ++ b) = upsertMetadatas a ++ upsertMetadatas b := by
  simp [upsertMetadatas]

theorem upsertMetadatas_nil : upsertMetadatas [] = [] := rfl

theorem upsertMetadatas_insertDoc (i : String) (s : DocStatus) (st : Stage) (l : List Event) :
    upsertMetadatas (Event.insertDoc i s st :: l) = upsertMetadatas l := rfl

theorem upsertMetadatas_updateStatus (i : String) (s : Option DocStatus) (st : Option Stage)
    (e : Option String) (l : List Event) :
    upsertMetadatas (Event.updateStatus i s st e :: l) = upsertMetadatas l := rfl

theorem upsertMetadatas_updateContent (i : String) (st : Option Stage) (l : List Event) :
    upsertMetadatas (Event.updateContent i st :: l) = upsertMetadatas l := rfl

theorem upsertMetadatas_uploadFile (k : String) (l : List Event) :
    upsertMetadatas (Event.uploadFile k :: l) = upsertMetadatas l := rfl

theorem upsertMetadatas_extract (l : List Event) :
    upsertMetadatas (Event.extractContent :: l) = upsertMetadatas l := rfl

theorem upsertMetadatas_upsert (ids : List String) (mds : List Metadata) (ns : Option String)
    (l : List Event) :
    upsertMetadatas (Event.upsertChunks ids mds ns :: l) = mds ++ upsertMetadatas l := rfl

/-- Every metadata bag the non-video loop hands to Pinecone is the bag of
one semantic chunk of one of the prepared pre-chunks. -/
theorem upsertPreChunks_metadatas (env : FileEnv) (docId : String) (ns : Option String) :
    ∀ (pcs : List (String × Metadata)) (k tot : Nat),
      ∀ m ∈ upsertMetadatas (upsertPreChunks env docId ns pcs k tot).1,
        ∃ pc ∈ pcs, ∃ c ∈ chunkWithMetadata env.semanticSplit pc.1 pc.2, m = c.2 := by
  intro pcs
  induction pcs with
  | nil => intro k tot m hm; simp [upsertPreChunks, upsertMetadatas_nil] at hm
  | cons pc rest ih =>
    intro k tot m hm
    unfold upsertPreChunks at hm
    cases hp : env.pineconeError k with
    | some msg => simp [hp, upsertMetadatas_nil] at hm
    | none =>
      simp only [hp] at hm
      rw [upsertMetadatas_upsert] at hm
      rcases List.mem_append.mp hm with hin | hrec
      · rcases List.mem_map.mp hin with ⟨c, hc, hceq⟩
        exact ⟨pc, List.mem_cons_self pc rest, c, hc, hceq.symm⟩
      · rcases ih (k + 1) (tot + (chunkWithMetadata env.semanticSplit pc.1 pc.2).length) m hrec
          with ⟨pc2, hpc2, c, hc, hceq⟩
        exact ⟨pc2, List.mem_cons_of_mem pc hpc2, c, hc, hceq⟩

/-- Shape of a chunk bag produced by the (spec-modelled) semantic chunker. -/
theorem chunkWithMetadata_shape (split : String → List String) (text : String)
    (base : Metadata) :
    ∀ c ∈ chunkWithMetadata split text base,
      ∃ i, c.2 = metaInsert base "chunk_index" (MValue.nat i) := by
  intro c hc
  unfold chunkWithMetadata at hc
  rcases List.mem_map.mp hc with ⟨pi, _, hpi⟩
  exact ⟨pi.1, by rw [← hpi]⟩

/-- Shape of a pre-chunk bag produced by the (spec-modelled) pre-splitter. -/
theorem prepareContent_shape (preSplit : String → List String) (content : String)
    (metadata : Metadata) :
    ∀ pc ∈ prepareContentForVectorization preSplit content metadata,
      ∃ i, pc.2 = metaInsert metadata "pre_chunk_index" (MValue.nat i) := by
  intro pc hpc
  unfold prepareContentForVectorization at hpc
  rcases List.mem_map.mp hpc with ⟨pi, _, hpi⟩
  exact ⟨pi.1, by rw [← hpi]⟩

theorem baseMetadata_nullFree (documentId fileName folderName fileKey : String)
    (u : String) {additional : Metadata} (hadd : nullFree additional) :
    nullFree (baseMetadata documentId fileName folderName fileKey (some u) additional) := by
  unfold baseMetadata
  refine nullFree_metaMerge hadd ?_
  intro kv hkv
  simp [MValue.ofOpt] at hkv
  rcases hkv with h | h | h | h | h <;> simp [h]

theorem baseMetadata_docId (documentId fileName folderName fileKey : String)
    (userId : Option String) {additional : Metadata}
    (hadd : ∀ kv ∈ additional, kv.1 ≠ "document_id") :
    metaGet (baseMetadata documentId fileName folderName fileKey userId additional)
      "document_id" = some (MValue.str documentId) := by
  unfold baseMetadata
  rw [metaGet_metaMerge_notin hadd]
  simp [metaGet_cons]

/-- Every chunk metadata bag written to Pinecone by a run with a user id
and a null-free `additional_metadata` that does not shadow `document_id`
is null-free and carries the source document's id. -/
theorem upsert_metadata_master (folderName : String) (u : String)
    (organizationId : Option String) (additional : Metadata) (env : FileEnv)
    (hnull : nullFree additional)
    (hdoc : ∀ kv ∈ additional, kv.1 ≠ "document_id") :
    ∀ m ∈ upsertMetadatas
        (processSingleDocument folderName (some u) organizationId additional env).events,
      nullFree m ∧ metaGet m "document_id" = some (MValue.str env.newDocId) := by
  intro m hm
  unfold processSingleDocument at hm
  cases hu : env.uploadError with
  | some msg =>
    simp [hu, failWith, upsertMetadatas_insertDoc, upsertMetadatas_updateStatus,
      upsertMetadatas_nil] at hm
  | none =>
    cases hx : env.extractResult with
    | failure msg =>
      simp [hu, hx, failWith, upsertMetadatas_insertDoc, upsertMetadatas_updateStatus,
        upsertMetadatas_uploadFile, upsertMetadatas_nil] at hm
    | video c ch =>
      by_cases hv : c = "" ∨ ch = []
      · simp [hu, hx, hv, failWith, upsertMetadatas_insertDoc, upsertMetadatas_updateStatus,
          upsertMetadatas_uploadFile, upsertMetadatas_extract, upsertMetadatas_nil] at hm
      · cases hp : env.pineconeError 0 with
        | some msg =>
          simp [hu, hx, hv, hp, failWith, upsertMetadatas_insertDoc,
            upsertMetadatas_updateStatus, upsertMetadatas_uploadFile,
            upsertMetadatas_extract, upsertMetadatas_updateContent, upsertMetadatas_nil] at hm
        | none =>
          simp [hu, hx, hv, hp, upsertMetadatas_insertDoc, upsertMetadatas_updateStatus,
            upsertMetadatas_uploadFile, upsertMetadatas_extract, upsertMetadatas_updateContent,
            upsertMetadatas_upsert, upsertMetadatas_nil, upsertMetadatas_append] at hm
          rcases hm with ⟨vc, _, hvc⟩
          rw [← hvc]
          exact ⟨videoChunkMetadata_nullFree _ _ _ _ u hnull vc,
            videoChunkMetadata_docId _ _ _ _ _ hdoc vc⟩
    | text content =>
      by_cases hval : validateExtractedContent content
      · have hloop := upsertPreChunks_metadatas env env.newDocId organizationId
          (prepareContentForVectorization env.preSplit content
            (baseMetadata env.newDocId env.filename folderName
              (mkFileKey organizationId folderName env.safeFilename) (some u) additional)) 0 0
        have main : m ∈ upsertMetadatas (upsertPreChunks env env.newDocId organizationId
            (prepareContentForVectorization env.preSplit content
              (baseMetadata env.newDocId env.filename folderName
                (mkFileKey organizationId folderName env.safeFilename) (some u) additional))
            0 0).1 →
            nullFree m ∧ metaGet m "document_id" = some (MValue.str env.newDocId) := by
          intro hmem
          rcases hloop m hmem with ⟨pc, hpc, cchunk, hcchunk, hmeq⟩
          rcases prepareContent_shape env.preSplit content _ pc hpc with ⟨i, hpcshape⟩
          rcases chunkWithMetadata_shape env.semanticSplit pc.1 pc.2 cchunk hcchunk
            with ⟨j, hcshape⟩
          rw [hmeq, hcshape, hpcshape]
          constructor
          · exact nullFree_metaInsert
              (nullFree_metaInsert
                (baseMetadata_nullFree _ _ _ _ u hnull) (by simp)) (by simp)
          · rw [metaGet_metaInsert_ne _ _ (by decide),
              metaGet_metaInsert_ne _ _ (by decide)]
            exact baseMetadata_docId _ _ _ _ _ hdoc
        cases hl : (upsertPreChunks env env.newDocId organizationId
            (prepareContentForVectorization env.preSplit content
              (baseMetadata env.newDocId env.filename folderName
                (mkFileKey organizationId folderName env.safeFilename) (some u) additional))
            0 0).2.2 with
        | some msg =>
          simp [hu, hx, hval, hl, failWith, upsertMetadatas_insertDoc,
            upsertMetadatas_updateStatus, upsertMetadatas_uploadFile, upsertMetadatas_extract,
            upsertMetadatas_updateContent, upsertMetadatas_nil, upsertMetadatas_append] at hm
          exact main hm
        | none =>
          simp [hu, hx, hval, hl, upsertMetadatas_insertDoc, upsertMetadatas_updateStatus,
            upsertMetadatas_uploadFile, upsertMetadatas_extract, upsertMetadatas_updateContent,
            upsertMetadatas_nil, upsertMetadatas_append] at hm
          exact main hm
      · simp [hu, hx, hval, failWith, upsertMetadatas_insertDoc, upsertMetadatas_updateStatus,
          upsertMetadatas_uploadFile, upsertMetadatas_extract, upsertMetadatas_nil] at hm

theorem splitWindows_zero (s t : Nat) :
    (splitWindows s t).get? 0 =
      if s < t then some (s, min (s + audioChunkMs) t) else none := by
  rw [splitWindows]
  by_cases h : s < t
  · rw [if_pos h, if_pos h, List.get?_cons_zero]
  · rw [if_neg h, if_neg h, List.get?_nil]

/-- The windows built by `_transcribe_chunked_file` are exactly the
consecutive 10-minute windows `[k*chunk, min((k+1)*chunk, total))`. -/
theorem splitWindows_get? (k : Nat) :
    ∀ (startMs totalMs : Nat),
      (splitWindows startMs totalMs).get? k =
        if startMs + k * audioChunkMs < totalMs then
          some (startMs + k * audioChunkMs,
            min (startMs + (k + 1) * audioChunkMs) totalMs)
        else none := by
  induction k with
  | zero =>
    intro s t
    have e0 : s + 0 * audioChunkMs = s := by ring
    have e1 : s + (0 + 1) * audioChunkMs = s + audioChunkMs := by ring
    rw [e0, e1]
    exact splitWindows_zero s t
  | succ k ih =>
    intro s t
    rw [splitWindows]
    by_cases h : s < t
    · rw [if_pos h, List.get?_cons_succ]
      rw [ih]
      have e1 : s + audioChunkMs + k * audioChunkMs
          = s + (k + 1) * audioChunkMs := by ring
      have e2 : s + audioChunkMs + (k + 1) * audioChunkMs
          = s + (k + 1 + 1) * audioChunkMs := by ring
      rw [e1, e2]
    · rw [if_neg h]
      have hge : s ≤ s + (k + 1) * audioChunkMs := Nat.le_add_right _ _
      have hno : ¬ (s + (k + 1) * audioChunkMs < t) := by omega
      rw [if_neg hno, List.get?_nil]

/-- The Python size gate `len / (1024*1024) <= 20` in exact arithmetic. -/
theorem fileSize_gate (fileLen : Nat) :
    ((fileLen : ℚ) / (1024 * 1024) ≤ 20) ↔ fileLen ≤ 20 * 1024 * 1024 := by
  rw [div_le_iff₀ (by norm_num)]
  constructor
  · intro h
    have h2 : (fileLen : ℚ) ≤ ((20 * 1024 * 1024 : Nat) : ℚ) := by
      calc (fileLen : ℚ) ≤ 20 * (1024 * 1024) := h
        _ = ((20 * 1024 * 1024 : Nat) : ℚ) := by norm_num
    exact_mod_cast h2
  · intro h
    have h2 : (fileLen : ℚ) ≤ ((20 * 1024 * 1024 : Nat) : ℚ) := by exact_mod_cast h
    calc (fileLen : ℚ) ≤ ((20 * 1024 * 1024 : Nat) : ℚ) := h2
      _ = 20 * (1024 * 1024) := by norm_num

theorem count_set (v : Phase) :
    ∀ (l : List Phase) (i : Nat) (w : Phase), l.get? i = some w →
      ∀ (a : Phase),
        (l.set i v).count a + (if w = a then 1 else 0)
          = l.count a + (if v = a then 1 else 0) := by
  intro l
  induction l with
  | nil => intro i w h a; simp at h
  | cons x rest ih =>
    intro i w h a
    cases i with
    | zero =>
      rw [List.get?_cons_zero] at h
      injection h with h
      rw [h] at *
      simp [List.set, List.count_cons]
      omega
    | succ i =>
      rw [List.get?_cons_succ] at h
      have := ih i w h a
      simp [List.set, List.count_cons]
      omega

theorem gov_step_preserves (n : Nat) {s t : GovState} (hstep : GovStep s t)
    (ih : s.avail + holdingCount s = n) : t.avail + holdingCount t = n := by
  cases hstep with
  | acquire i hi hav =>
    have hcount := count_set Phase.holding s.phases i Phase.waiting hi Phase.holding
    simp at hcount
    simp only [holdingCount] at ih ⊢
    omega
  | finish i hi =>
    have hcount := count_set Phase.finished s.phases i Phase.holding hi Phase.holding
    simp at hcount
    simp only [holdingCount] at ih ⊢
    omega

theorem gov_invariant (n m : Nat) (s : GovState) (h : GovReachable n m s) :
    s.avail + holdingCount s = n := by
  induction h with
  | init => simp [govInit, holdingCount, List.count_replicate]
  | step hr hstep ih => exact gov_step_preserves n hstep ih

/-- Claim C6: for every detected scene, the selected key frame is the
temporal midpoint frame `(start_frame + end_frame) // 2`, and its
timestamp equals the spec formula
`start_time + (key - start_frame)/(end_frame - start_frame) * (end_time - start_time)`
with the degenerate `end_frame == start_frame` case yielding `start_time`. -/
theorem keyFrame_midpoint_and_timestamp (entropyOf : Int → ℚ) (s : Scene)
    (h : s.start_frame ≤ s.end_frame) :
    (selectKeyFrame entropyOf s).frame_number = (s.start_frame + s.end_frame).fdiv 2 ∧
    (selectKeyFrame entropyOf s).timestamp = specKeyFrameTimestamp s (middleFrame s) := by
  constructor
  · rfl
  · unfold selectKeyFrame specKeyFrameTimestamp
    by_cases he : s.end_frame = s.start_frame
    · simp [he]
    · have hp : s.end_frame - s.start_frame > 0 := by omega
      simp [he, hp]

/-- Witness for C6 at the spec's concrete scene: frames 100-200 over
4.0s-8.0s give key frame 150 at 6.0 seconds. -/
theorem keyFrame_midpoint_and_timestamp_witness :
    c6Scene.start_frame ≤ c6Scene.end_frame ∧
    (selectKeyFrame (fun _ => 0) c6Scene).frame_number = 150 ∧
    (selectKeyFrame (fun _ => 0) c6Scene).timestamp = 6 := by
  have h := keyFrame_midpoint_and_timestamp (fun _ => 0) c6Scene (by decide)
  refine ⟨by decide, ?_, ?_⟩
  · rw [h.1]
    decide
  · rw [h.2]
    have hm : middleFrame c6Scene = 150 := by decide
    rw [hm]
    norm_num [specKeyFrameTimestamp, c6Scene]

/-- Claim C7: audio of at most 20 MB is transcribed in a single call;
larger audio is split into consecutive fixed 10-minute windows (the last
possibly shorter), each window transcribed independently, and every
returned segment shifted by the window's start offset in seconds in the
reassembled transcript. -/
theorem audio_windowing (fileLen totalMs : Nat) (single : List TSeg)
    (oracle : Nat → Nat → List TSeg) :
    (fileLen ≤ 20 * 1024 * 1024 →
      transcribeAudioWithTimestamps fileLen single oracle totalMs = single) ∧
    (20 * 1024 * 1024 < fileLen →
      (transcribeAudioWithTimestamps fileLen single oracle totalMs =
        (splitWindows 0 totalMs).flatMap
          (fun w => (oracle w.1 w.2).map (shiftSeg w.1))) ∧
      (∀ k, (splitWindows 0 totalMs).get? k =
        if k * audioChunkMs < totalMs then
          some (k * audioChunkMs, min ((k + 1) * audioChunkMs) totalMs)
        else none) ∧
      (∀ w ∈ splitWindows 0 totalMs, ∀ seg ∈ oracle w.1 w.2,
        shiftSeg w.1 seg ∈ transcribeAudioWithTimestamps fileLen single oracle totalMs)) := by
  constructor
  · intro h
    unfold transcribeAudioWithTimestamps
    rw [if_pos ((fileSize_gate fileLen).mpr h)]
  · intro h
    have hgate : ¬ ((fileLen : ℚ) / (1024 * 1024) ≤ 20) := by
      rw [fileSize_gate]
      omega
    refine ⟨?_, ?_, ?_⟩
    · unfold transcribeAudioWithTimestamps transcribeChunkedFile
      rw [if_neg hgate]
    · intro k
      have := splitWindows_get? k 0 totalMs
      simpa using this
    · intro w hw seg hseg
      unfold transcribeAudioWithTimestamps transcribeChunkedFile
      rw [if_neg hgate]
      exact List.mem_flatMap.mpr ⟨w, hw, List.mem_map_of_mem _ hseg⟩

/-- Witness for C7 at the spec's concrete scenario: a 30 MB, 25-minute
file; the window at offset 600 s returns a segment at 15-20 s, and the
reassembled transcript contains it at 615-620 s. -/
theorem audio_windowing_witness :
    20 * 1024 * 1024 < 30 * 1024 * 1024 ∧
    (600000, 1200000) ∈ splitWindows 0 1500000 ∧
    ({ start := 15, stop := 20, text := "hello" } : TSeg) ∈ c7oracle 600000 1200000 ∧
    ({ start := 615, stop := 620, text := "hello" } : TSeg) ∈
      transcribeAudioWithTimestamps (30 * 1024 * 1024) [] c7oracle 1500000 := by
  have hwin : (splitWindows 0 1500000).get? 1 = some (600000, 1200000) := by
    have h1 := splitWindows_get? 1 0 1500000
    rw [h1]
    norm_num [audioChunkMs]
  have hmem : (600000, 1200000) ∈ splitWindows 0 1500000 := List.get?_mem hwin
  have hseg : ({ start := 15, stop := 20, text := "hello" } : TSeg) ∈ c7oracle 600000 1200000 := by
    simp [c7oracle]
  have h := (audio_windowing (30 * 1024 * 1024) 1500000 [] c7oracle).2 (by norm_num)
  have hshift := h.2.2 (600000, 1200000) hmem
    ({ start := 15, stop := 20, text := "hello" } : TSeg) hseg
  have hval : shiftSeg 600000 ({ start := 15, stop := 20, text := "hello" } : TSeg)
      = ({ start := 615, stop := 620, text := "hello" } : TSeg) := by
    norm_num [shiftSeg]
  rw [hval] at hshift
  exact ⟨by norm_num, hmem, hseg, hshift⟩

/-- Claim C9: chunk vector IDs are a pure function of the document ID and
the chunk's position (equal positions give equal IDs), distinct positions
within one document give distinct IDs, and the per-pre-chunk ID list
`[f"{d}_pre{p}_chunk{i}" for i in range(n)]` has no duplicates. -/
theorem chunk_ids_deterministic_and_distinct (d : String) (p i q j c c' n : Nat) :
    (mkChunkId d p i = mkChunkId d q j ↔ p = q ∧ i = j) ∧
    (mkVideoChunkId d c = mkVideoChunkId d c' ↔ c = c') ∧
    ((List.range n).map (mkChunkId d p)).Nodup := by
  refine ⟨mkChunkId_inj d p i q j, mkVideoChunkId_inj d c c', ?_⟩
  refine List.Nodup.map ?_ (List.nodup_range n)
  intro a b hab
  exact ((mkChunkId_inj d p a p b).mp hab).2

/-- Claim C3 (amended): inside the batch path, the event trace of one file
starts with the semaphore acquisition immediately followed by the insert
of the `processing`/`initializing` record, so the record exists before any
upload, extraction or indexing effect — but after the Governor slot is
taken. -/
theorem record_insert_first_inside_slot (folderName : String)
    (userId organizationId : Option String) (additional : Metadata) (env : FileEnv) :
    (processFileWithErrorHandling folderName userId organizationId additional env).1.take 2
      = [Event.semAcquire,
         Event.insertDoc env.newDocId DocStatus.processing Stage.initializing] :=
  record_precedes_work folderName userId organizationId additional env

/-- Counterexample to C3 as stated: in the concrete successful text run
the semaphore-acquire event is at position 0 and the record insert at
position 1 — the record is inserted after the Governor slot is requested,
not before. -/
theorem record_insert_after_acquire_counterexample :
    List.findIdx isAcquireEv
        (processFileWithErrorHandling "fold" none (some "org1") [] cTextEnv).1 = 0 ∧
    List.findIdx isInsertEv
        (processFileWithErrorHandling "fold" none (some "org1") [] cTextEnv).1 = 1 := by
  decide

/-- Claim C1: in a batch, each file's result is the wrapper applied to
that file alone (isolation), a file whose pipeline raises gets its record
marked `failed` with the exception message as its error, and the batch
reports a per-file success/failure value instead of propagating. -/
theorem batch_failure_isolation (folderName : String)
    (userId organizationId : Option String) (additional : Metadata)
    (envs : List FileEnv) (k : Nat) (hk : k < envs.length) (msg : String)
    (hmsg : msg ≠ "") :
    ((ingestDocuments folderName userId organizationId additional envs).2.length
        = envs.length) ∧
    ((ingestDocuments folderName userId organizationId additional envs).2.get? k
        = some (processFileWithErrorHandling folderName userId organizationId additional
            (envs.get ⟨k, hk⟩))) ∧
    ((processSingleDocument folderName userId organizationId additional
          (envs.get ⟨k, hk⟩)).outcome = Except.error msg →
      (processSingleDocument folderName userId organizationId additional
          (envs.get ⟨k, hk⟩)).record.status = DocStatus.failed ∧
      (processSingleDocument folderName userId organizationId additional
          (envs.get ⟨k, hk⟩)).record.error = some msg ∧
      msg ≠ "" ∧
      (processFileWithErrorHandling folderName userId organizationId additional
          (envs.get ⟨k, hk⟩)).2.2
        = { success := false, filename := (envs.get ⟨k, hk⟩).filename,
            result := none, error := some msg }) ∧
    (∀ r, (processSingleDocument folderName userId organizationId additional
          (envs.get ⟨k, hk⟩)).outcome = Except.ok r →
      (processFileWithErrorHandling folderName userId organizationId additional
          (envs.get ⟨k, hk⟩)).2.2
        = { success := true, filename := (envs.get ⟨k, hk⟩).filename,
            result := some r, error := none }) := by
  have hget : envs.get ⟨k, hk⟩ = envs[k] := rfl
  refine ⟨?_, ?_, ?_, ?_⟩
  · simp [ingestDocuments]
  · simp [ingestDocuments, List.get?_eq_getElem?, List.getElem?_map,
      List.getElem?_eq_getElem hk, hget]
  · intro h
    have hs := processSingle_fail_state folderName userId organizationId additional
      (envs.get ⟨k, hk⟩) msg h
    rw [hget] at h
    refine ⟨hs.1, hs.2.2, hmsg, ?_⟩
    simp only [hget, processFileWithErrorHandling, h]
  · intro r h
    rw [hget] at h
    simp only [hget, processFileWithErrorHandling, h]

/-- Witness for C1: in the batch `[cTextEnv, cFailEnv, cTextEnv2]` where
file #2's extraction raises "boom", file #2's record ends `failed` with
error "boom" and its batch entry is a failure value, while files #1 and #3
end `completed`. -/
theorem batch_failure_isolation_witness :
    (1 < c1Envs.length ∧ ("boom" : String) ≠ "") ∧
    (ingestDocuments "fold" none (some "org1") [] c1Envs).2.length = 3 ∧
    (processSingleDocument "fold" none (some "org1") [] cFailEnv).record.status
      = DocStatus.failed ∧
    (processSingleDocument "fold" none (some "org1") [] cFailEnv).record.error
      = some "boom" ∧
    (processFileWithErrorHandling "fold" none (some "org1") [] cFailEnv).2.2
      = { success := false, filename := "bad.txt", result := none, error := some "boom" } ∧
    (processSingleDocument "fold" none (some "org1") [] cTextEnv).record.status
      = DocStatus.completed ∧
    (processSingleDocument "fold" none (some "org1") [] cTextEnv2).record.status
      = DocStatus.completed := by
  have hk : 1 < c1Envs.length := by decide
  have h := batch_failure_isolation "fold" none (some "org1") [] c1Envs 1 hk "boom" (by decide)
  have henv : c1Envs.get ⟨1, hk⟩ = cFailEnv := rfl
  have hout : (processSingleDocument "fold" none (some "org1") [] cFailEnv).outcome
      = Except.error "boom" := by decide
  have h3 := h.2.2
  rw [henv] at h3
  have hr := h3.1 hout
  have hlen : (ingestDocuments "fold" none (some "org1") [] c1Envs).2.length = 3 := by
    rw [h.1]
    decide
  refine ⟨⟨hk, by decide⟩, hlen, hr.1, hr.2.1, ?_, by decide, by decide⟩
  simpa using hr.2.2.2

/-- Claim C2: in every reachable state of the admission-gate transition
system, at most `n` pipelines are simultaneously between `acquire()` and
`release()`, and a pipeline holding a slot can always release it (the
`async with` exit runs on both the return and the raise path). -/
theorem governor_capacity_bound (n m : Nat) (s : GovState)
    (h : GovReachable n m s) :
    holdingCount s ≤ n ∧
    (∀ i, s.phases.get? i = some Phase.holding →
      GovStep s { avail := s.avail + 1, phases := s.phases.set i Phase.finished }) := by
  constructor
  · have := gov_invariant n m s h
    omega
  · intro i hi
    exact GovStep.finish s i hi

/-- Witness for C2: the state with one of two pipelines holding one of two
slots is reachable, respects the bound, and can release. -/
theorem governor_capacity_bound_witness :
    GovReachable 2 2 c2State ∧
    holdingCount c2State ≤ 2 ∧
    GovStep c2State { avail := c2State.avail + 1, phases := c2State.phases.set 0 Phase.finished } := by
  have hreach : GovReachable 2 2 c2State := by
    have h0 : GovReachable 2 2 (govInit 2 2) := GovReachable.init
    have hstep := GovStep.acquire (govInit 2 2) 0 (by decide) (by decide)
    have heq : (⟨(govInit 2 2).avail - 1, (govInit 2 2).phases.set 0 Phase.holding⟩ : GovState)
        = c2State := by decide
    rw [heq] at hstep
    exact GovReachable.step h0 hstep
  have h := governor_capacity_bound 2 2 c2State hreach
  exact ⟨hreach, h.1, h.2 0 (by decide)⟩

/-- Claim C4 (amended): every chunk metadata bag written to the vector
store carries `document_id` equal to the source document's ID, and — when
a user id is present and the caller-supplied additional metadata is
null-free and does not shadow `document_id` — contains no key mapped to
null; `keyframe_file_key` is the only field that is omitted-when-None,
while `user_id` is written as null when no user id is supplied. -/
theorem chunk_metadata_nullfree_and_docid (folderName : String) (u : String)
    (organizationId : Option String) (additional : Metadata) (env : FileEnv)
    (hnull : nullFree additional)
    (hdoc : ∀ kv ∈ additional, kv.1 ≠ "document_id") :
    ∀ m ∈ upsertMetadatas
        (processSingleDocument folderName (some u) organizationId additional env).events,
      nullFree m ∧ metaGet m "document_id" = some (MValue.str env.newDocId) :=
  upsert_metadata_master folderName u organizationId additional env hnull hdoc

/-- Witness for C4 (amended): with a user id present, the single video
chunk written by the concrete video run has a null-free bag whose
`document_id` is the document's ID. -/
theorem chunk_metadata_nullfree_and_docid_witness :
    nullFree ([] : Metadata) ∧
    (∀ m ∈ upsertMetadatas
        (processSingleDocument "fold" (some "u1") (some "org1") [] cVideoEnv).events,
      nullFree m ∧ metaGet m "document_id" = some (MValue.str "d3")) := by
  refine ⟨by decide, fun m hm => ?_⟩
  exact chunk_metadata_nullfree_and_docid "fold" "u1" (some "org1") [] cVideoEnv
    (by decide) (by decide) m hm

/-- Counterexample to C4 as stated: in the concrete video run without a
user id, the chunk metadata written to the vector store maps `user_id` to
null instead of omitting the key. -/
theorem chunk_metadata_null_counterexample :
    ∃ m ∈ upsertMetadatas
        (processSingleDocument "fold" none (some "org1") [] cVideoEnv).events,
      ("user_id", MValue.null) ∈ m ∧
      metaGet m "document_id" = some (MValue.str "d3") := by
  decide

/-- Claim C5 (amended): the persisted stage sequence of every run is
strictly increasing along
initializing < uploading_extracting < content_extracted < embedding <
completed < failed; a raising run ends in the terminal `failed`; a
successful video run passes through all five stages, while a successful
non-video run skips the `embedding` stage entirely. -/
theorem stage_machine_monotone (folderName : String)
    (userId organizationId : Option String) (additional : Metadata) (env : FileEnv) :
    List.Chain' (fun a b => stageIdx a < stageIdx b)
      (stageTrace (processSingleDocument folderName userId organizationId additional env).events) ∧
    (∀ msg, (processSingleDocument folderName userId organizationId additional env).outcome
        = Except.error msg →
      (stageTrace (processSingleDocument folderName userId organizationId additional env).events).getLast?
        = some Stage.failed) ∧
    (∀ r c ch, (processSingleDocument folderName userId organizationId additional env).outcome
        = Except.ok r →
      env.extractResult = ExtractResult.video c ch →
      stageTrace (processSingleDocument folderName userId organizationId additional env).events
        = [Stage.initializing, Stage.uploading_extracting, Stage.content_extracted,
           Stage.embedding, Stage.completed]) ∧
    (∀ r content, (processSingleDocument folderName userId organizationId additional env).outcome
        = Except.ok r →
      env.extractResult = ExtractResult.text content →
      stageTrace (processSingleDocument folderName userId organizationId additional env).events
        = [Stage.initializing, Stage.uploading_extracting, Stage.content_extracted,
           Stage.completed]) :=
  ⟨stage_trace_chain folderName userId organizationId additional env,
   fun msg h => stage_trace_failed_last folderName userId organizationId additional env msg h,
   fun r c ch h hx => stage_trace_success_video folderName userId organizationId additional
     env r c ch h hx,
   fun r content h hx => stage_trace_success_text folderName userId organizationId additional
     env r content h hx⟩

/-- Witness for C5 (amended): the concrete successful video run persists
all five stages in order. -/
theorem stage_machine_monotone_witness :
    (processSingleDocument "fold" (some "u1") (some "org1") [] cVideoEnv).outcome
      = Except.ok
        { document_id := "d3", file_name := "clip.mp4", folder_name := "fold",
          file_key := "org1/fold/clip.mp4", file_size_mb := 5, total_chunks := 1,
          token_count := none } ∧
    cVideoEnv.extractResult = ExtractResult.video "combined" [cVideoChunk] ∧
    stageTrace (processSingleDocument "fold" (some "u1") (some "org1") [] cVideoEnv).events
      = [Stage.initializing, Stage.uploading_extracting, Stage.content_extracted,
         Stage.embedding, Stage.completed] := by
  refine ⟨by decide, by decide, ?_⟩
  exact (stage_machine_monotone "fold" (some "u1") (some "org1") [] cVideoEnv).2.2.1
    { document_id := "d3", file_name := "clip.mp4", folder_name := "fold",
      file_key := "org1/fold/clip.mp4", file_size_mb := 5, total_chunks := 1,
      token_count := none }
    "combined" [cVideoChunk] (by decide) (by decide)

/-- Counterexample to C5 as stated: the concrete successful text run
reaches `completed` without ever persisting the `embedding` stage. -/
theorem stage_machine_skips_embedding_counterexample :
    (processSingleDocument "fold" none (some "org1") [] cTextEnv).outcome
      = Except.ok
        { document_id := "d0", file_name := "notes.txt", folder_name := "fold",
          file_key := "org1/fold/notes.txt", file_size_mb := 1, total_chunks := 1,
          token_count := some 2 } ∧
    stageTrace (processSingleDocument "fold" none (some "org1") [] cTextEnv).events
      = [Stage.initializing, Stage.uploading_extracting, Stage.content_extracted,
         Stage.completed] ∧
    Stage.embedding ∉
      stageTrace (processSingleDocument "fold" none (some "org1") [] cTextEnv).events := by
  decide

/-- Claim C8 (amended): the object-storage key recorded for a document is
`{organization_id}/{folder_name}/{sanitized_file_name}` when an
organization id is present (and `{folder_name}/{sanitized_file_name}`
otherwise); it is built from the sanitized original file name, before any
document ID exists. -/
theorem file_key_shape (folderName : String) (userId organizationId : Option String)
    (additional : Metadata) (env : FileEnv) (org : String) :
    (processSingleDocument folderName userId organizationId additional env).record.file_key
      = mkFileKey organizationId folderName env.safeFilename ∧
    mkFileKey (some org) folderName env.safeFilename
      = org ++ "/" ++ folderName ++ "/" ++ env.safeFilename ∧
    mkFileKey none folderName env.safeFilename
      = folderName ++ "/" ++ env.safeFilename :=
  ⟨file_key_from_sanitized_name folderName userId organizationId additional env, rfl, rfl⟩

/-- Counterexample to C8 as stated: in the concrete successful run the
stored key is `org1/fold/notes.txt`, built from the sanitized file name,
and differs from the spec's `{organization_id}/{folder_name}/{document_id}{extension}`
(`org1/fold/d0.txt` for document `d0` with extension `.txt`). -/
theorem file_key_not_docid_counterexample :
    (processSingleDocument "fold" none (some "org1") [] cTextEnv).outcome
      = Except.ok
        { document_id := "d0", file_name := "notes.txt", folder_name := "fold",
          file_key := "org1/fold/notes.txt", file_size_mb := 1, total_chunks := 1,
          token_count := some 2 } ∧
    (processSingleDocument "fold" none (some "org1") [] cTextEnv).record.file_key
      = "org1/fold/notes.txt" ∧
    (processSingleDocument "fold" none (some "org1") [] cTextEnv).record.file_extension
      = ".txt" ∧
    specFileKey "org1" "fold" "d0" ".txt" = "org1/fold/d0.txt" ∧
    (processSingleDocument "fold" none (some "org1") [] cTextEnv).record.file_key
      ≠ specFileKey "org1" "fold" "d0" ".txt" := by
  decide

/-- Claim C10: when the document record exists, `delete_document` always
deletes the record and returns `deleted: true`, even when the
object-storage or vector-store deletions raise (they are swallowed, so no
storage-delete effect happens on a storage failure); a missing record
aborts with an error and no side effects. -/
theorem delete_document_swallows_failures (documentId : String)
    (deleteFromStorage : Bool) (env : DeleteEnv) :
    (∀ doc, env.found = some doc →
      (deleteDocument documentId deleteFromStorage env).2 = Except.ok (documentId, true) ∧
      DeleteEvent.recordDelete documentId ∈ (deleteDocument documentId deleteFromStorage env).1 ∧
      (∀ e, env.storageError = some e →
        ∀ key, DeleteEvent.storageDelete key ∉ (deleteDocument documentId deleteFromStorage env).1) ∧
      (∀ e, env.pineconeError = some e →
        ∀ ns, DeleteEvent.chunksDelete documentId ns ∉ (deleteDocument documentId deleteFromStorage env).1)) ∧
    (env.found = none →
      (deleteDocument documentId deleteFromStorage env).2
        = Except.error ("Document not found: " ++ documentId) ∧
      (deleteDocument documentId deleteFromStorage env).1 = []) := by
  constructor
  · intro doc hdoc
    unfold deleteDocument
    rw [hdoc]
    refine ⟨rfl, ?_, ?_, ?_⟩
    · simp
    · intro e he key
      rw [he]
      cases hfk : doc.file_key with
      | none =>
        by_cases hd : deleteFromStorage <;>
          cases hpe : env.pineconeError <;> simp [hd, hfk, hpe]
      | some k =>
        by_cases hd : deleteFromStorage
        · by_cases hk : k = "" <;>
            cases hpe : env.pineconeError <;> simp [hd, hfk, hk, hpe]
        · cases hpe : env.pineconeError <;> simp [hd, hfk, hpe]
    · intro e he ns
      rw [he]
      cases hfk : doc.file_key with
      | none => by_cases hd : deleteFromStorage <;> simp [hd, hfk]
      | some k =>
        by_cases hd : deleteFromStorage
        · by_cases hk : k = "" <;>
            cases hse : env.storageError <;> simp [hd, hfk, hk, hse]
        · simp [hd, hfk]
  · intro h
    simp [deleteDocument, h]

/-- Witness for C10: with both best-effort deletions raising, the call
still removes the record and reports `deleted: true`, and no
storage-delete effect happened. -/
theorem delete_document_swallows_failures_witness :
    cDeleteEnv.found = some cStoredDoc ∧
    (deleteDocument "docX" true cDeleteEnv).2 = Except.ok ("docX", true) ∧
    DeleteEvent.recordDelete "docX" ∈ (deleteDocument "docX" true cDeleteEnv).1 ∧
    DeleteEvent.storageDelete "org1/fold/notes.txt" ∉ (deleteDocument "docX" true cDeleteEnv).1 ∧
    DeleteEvent.chunksDelete "docX" (some "org1") ∉ (deleteDocument "docX" true cDeleteEnv).1 := by
  have h := (delete_document_swallows_failures "docX" true cDeleteEnv).1 cStoredDoc rfl
  exact ⟨rfl, h.1, h.2.1, h.2.2.1 "s3 down" rfl "org1/fold/notes.txt",
    h.2.2.2 "pinecone down" rfl (some "org1")⟩
